import Mathlib

/-!
# data-scraper: the selector evaluators, the URL expander and the worker pipeline

A shallow embedding of `backend.go`, and of the sequential `scraper` of `main.go`
in the namespace `MainGo`.  Go strings are Lean strings, slices are lists,
`map[string]interface{}` is an association list read through `mapGet`.  The libraries the program calls
(goquery, regexp2 on user patterns, net/url, the network, the sitemap file) are
fields of an environment `Env`; a call that stops the process (a panic or
`os.Exit`) is the error `Stop.halted`.
-/

namespace DataScraper

/-! ## Strings -/

/-- The zero digit of every block of ten code points of the Unicode category Nd
(Unicode 15.0).  regexp2 compiles `\d` without the ECMAScript option to this
category. -/
def ndZeros : List Nat :=
  [0x30, 0x660, 0x6f0, 0x7c0, 0x966, 0x9e6, 0xa66, 0xae6, 0xb66, 0xbe6, 0xc66,
   0xce6, 0xd66, 0xde6, 0xe50, 0xed0, 0xf20, 0x1040, 0x1090, 0x17e0, 0x1810,
   0x1946, 0x19d0, 0x1a80, 0x1a90, 0x1b50, 0x1bb0, 0x1c40, 0x1c50, 0xa620,
   0xa8d0, 0xa900, 0xa9d0, 0xa9f0, 0xaa50, 0xabf0, 0xff10, 0x104a0, 0x10d30,
   0x11066, 0x110f0, 0x11136, 0x111d0, 0x112f0, 0x11450, 0x114d0, 0x11650,
   0x116c0, 0x11730, 0x118e0, 0x11950, 0x11c50, 0x11d50, 0x11da0, 0x11f50,
   0x16a60, 0x16ac0, 0x16b50, 0x1d7ce, 0x1d7d8, 0x1d7e2, 0x1d7ec, 0x1d7f6,
   0x1e140, 0x1e2f0, 0x1e4f0, 0x1e950, 0x1fbf0]

/-- The character class of `\d` in the pattern of `getURL`. -/
def isNd (c : Char) : Bool :=
  ndZeros.any (fun z => decide (z ≤ c.toNat) && decide (c.toNat < z + 10))

/-- ASCII decimal digit, the only digits `strconv.ParseInt` accepts in base 10. -/
def isAsciiDigit (c : Char) : Bool :=
  decide (48 ≤ c.toNat) && decide (c.toNat ≤ 57)

/-- The value of a string of ASCII digits read left to right from `acc`, or
`none` at the first other character (the syntax error of `strconv.ParseInt`). -/
def parseDigits : Nat → List Char → Option Nat
  | acc, [] => some acc
  | acc, c :: cs =>
    if isAsciiDigit c then parseDigits (acc * 10 + (c.toNat - 48)) cs else none

/-- The call `strconv.ParseInt(s, 10, 64)` with the error dropped, as `getURL`
makes it: on a syntax error the value is 0.  The argument is a piece of the
regexp match, so it has no sign and at most ten characters, below the range of
int64. -/
def parseInt (s : List Char) : Nat :=
  match s with
  | [] => 0
  | _ :: _ => (parseDigits 0 s).getD 0

/-- The call `strings.Replace(s, old, new, -2)` for a non-empty `old`: every
non-overlapping occurrence of `old`, found left to right, is replaced.  The
counter is the number of characters of the current occurrence still to skip. -/
def replaceAll (old new : List Char) : Nat → List Char → List Char
  | _, [] => []
  | k + 1, _ :: cs => replaceAll old new k cs
  | 0, c :: cs =>
    if old.isPrefixOf (c :: cs) then new ++ replaceAll old new (old.length - 1) cs
    else c :: replaceAll old new 0 cs

/-- The call `strings.Split(s, sep)` for a separator of one character; `cur` is
the piece being read, reversed. -/
def splitAux (sep : Char) : List Char → List Char → List (List Char)
  | cur, [] => [cur.reverse]
  | cur, c :: cs =>
    if c = sep then cur.reverse :: splitAux sep [] cs else splitAux sep (c :: cur) cs

/-- The call `strings.Split(s, "-")`. -/
def splitDash (s : List Char) : List (List Char) := splitAux '-' [] s

/-- Go's `unicode.IsSpace`. -/
def isSpace (c : Char) : Bool :=
  let n := c.toNat
  decide (9 ≤ n ∧ n ≤ 13) || n == 0x20 || n == 0x85 || n == 0xA0 || n == 0x1680 ||
  decide (0x2000 ≤ n ∧ n ≤ 0x200a) || n == 0x2028 || n == 0x2029 || n == 0x202f ||
  n == 0x205f || n == 0x3000

/-- Drop the leading white space. -/
def trimLeft : List Char → List Char
  | [] => []
  | c :: cs => if isSpace c then trimLeft cs else c :: cs

/-- The call `strings.TrimSpace(s)`. -/
def trimSpace (s : String) : String :=
  ⟨(trimLeft (trimLeft s.data).reverse).reverse⟩

/-! ## The URL expander `getURL` -/

/-- The greedy `\d{1,n}` at the head of the input: the digits taken and the rest. -/
def takeDigits : Nat → List Char → List Char × List Char
  | 0, cs => ([], cs)
  | _ + 1, [] => ([], [])
  | n + 1, c :: cs =>
    if isNd c then ((takeDigits n cs).1.cons c, (takeDigits n cs).2) else ([], c :: cs)

/-- The anchor `$` of regexp2 without the Multiline option: the end of the input,
or the position before a final line feed. -/
def atEndZ (cs : List Char) : Bool :=
  match cs with
  | [] => true
  | [c] => c == '\n'
  | _ => false

/-- The pattern `(\[\d{1,10}-\d{1,10}\]$)` tried at the head of the input; the
result is the matched text.  A digit is never `-` or `]`, so giving back digits of
a greedy run cannot turn a failure into a match. -/
def matchRangeHere (cs : List Char) : Option (List Char) :=
  match cs with
  | '[' :: r1 =>
    match takeDigits 10 r1 with
    | ([], _) => none
    | (d1, '-' :: r3) =>
      match takeDigits 10 r3 with
      | ([], _) => none
      | (d2, ']' :: r5) =>
        if atEndZ r5 then some ('[' :: (d1 ++ '-' :: (d2 ++ [']']))) else none
      | _ => none
    | _ => none
  | _ => none

/-- The call `re.FindStringMatch(urlLink)` of `getURL`: the leftmost match. -/
def findRange : List Char → Option (List Char)
  | [] => none
  | c :: cs =>
    match matchRangeHere (c :: cs) with
    | some m => some m
    | none => findRange cs

/-- The loop `for x := int1; x <= int2; x++` of `getURL`, sending `val2` followed
by `x` in decimal. -/
def emitRange (val2 : String) (int1 int2 : Nat) : List String :=
  (List.range' int1 (int2 + 1 - int1)).map (fun x => val2 ++ toString x)

/-- The body of the loop of `getURL` for one template. -/
def getURLOne (urlLink : String) : List String :=
  match findRange urlLink.data with
  | some urlRange =>
    let val2 : String := ⟨replaceAll urlRange [] 0 urlLink.data⟩
    let urlRange2 := replaceAll [']'] [] 0 (replaceAll ['['] [] 0 urlRange)
    let rang := splitDash urlRange2
    let int1 := parseInt (rang.getD 0 [])
    let int2 := parseInt (rang.getD 1 [])
    emitRange val2 int1 int2
  | none => [urlLink]

/-- The sequence `getURL` sends on its channel before closing it. -/
def getURL : List String → List String
  | [] => []
  | urlLink :: urls => getURLOne urlLink ++ getURL urls

/-- The text of a range: `[`, the digits `d1`, `-`, the digits `d2`, `]`. -/
def rangeText (d1 d2 : List Char) : List Char := '[' :: (d1 ++ '-' :: (d2 ++ [']']))

/-- The number a string of ASCII digits denotes in base ten. -/
def decimalValue (d : List Char) : Nat := d.foldl (fun acc c => acc * 10 + (c.toNat - 48)) 0

/-! ## Data model -/

/-- The struct `selectors`; the field `Type` is `Typ` here. -/
structure Selectors where
  ID : String
  Typ : String
  ParentSelectors : List String
  Selector : String
  Multiple : Bool
  Regex : String
  Delay : Int
  ExtractAttribute : String
  deriving DecidableEq

/-- The struct `scraping`. -/
structure Scraping where
  ID : String
  StartURL : List String
  Selectors : List Selectors
  deriving DecidableEq

/-- The values stored in a `map[string]interface{}` of the program. -/
inductive Value where
  | str (s : String)
  | strs (l : List String)
  | rows (l : List (List String))
  | map (m : List (String × Value))
  | list (l : List Value)

/-- A `map[string]interface{}`: an association list with at most one entry per
key when built by `mapSet` from the empty map. -/
abbrev GoMap := List (String × Value)

/-- Reading `m[k]`. -/
def mapGet : GoMap → String → Option Value
  | [], _ => none
  | (k1, v) :: m, k => if k1 = k then some v else mapGet m k

/-- The assignment `m[k] = v`. -/
def mapSet : GoMap → String → Value → GoMap
  | [], k, v => [(k, v)]
  | (k1, v1) :: m, k, v => if k1 = k then (k, v) :: m else (k1, v1) :: mapSet m k v

/-- How a run stops short of a result: the process ended (a panic or `os.Exit`),
or the model ran out of fuel for nested evaluations. -/
inductive Stop where
  | halted
  | fuel
  deriving DecidableEq

/-- The libraries and the outside world of the program.  `Node` is a DOM node of
goquery, `URL` a parsed `*url.URL`. -/
structure Env (Node URL : Type) where
  /-- The method `Find` on the selection of one node: the descendants matching the
  query, in document order. -/
  find : Node → String → List Node
  /-- The method `Text` on the selection of one node. -/
  text : Node → String
  /-- The method `Attr` on one node; `none` when the attribute is absent. -/
  attr : Node → String → Option String
  /-- The call `regexp2.MustCompile(pattern, 0)`, `none` when it panics, with the
  text found by `FindStringMatch` of the compiled pattern. -/
  regexCompile : String → Option (String → Option String)
  /-- The call `url.Parse`, `none` on an error. -/
  urlParse : String → Option URL
  /-- The call `base.ResolveReference(ref)`, the base first. -/
  resolveReference : URL → URL → URL
  /-- The method `String` of a URL. -/
  urlString : URL → String
  /-- Whether `url.ParseRequestURI` returns no error. -/
  parseRequestURI : String → Bool
  /-- The call `crawlURL(url, userAgent)`: `none` when it exits the process,
  `some none` for a nil document. -/
  crawlURL : String → String → Option (Option Node)
  /-- The call `emulateURL(url, userAgent)`. -/
  emulateURL : String → String → Option (Option Node)
  /-- The file `sitemap.json` as `readSiteMap` decodes it, `none` when the decoding
  fails and the process exits. -/
  siteMapFile : Option Scraping
  /-- The field `settings.Workers`. -/
  Workers : Nat
  /-- The field `settings.JavaScript`. -/
  JavaScript : Bool
  /-- The field `settings.UserAgents`. -/
  UserAgents : List String
  /-- The field `settings.Export`. -/
  Export : String

section Evaluators

variable {Node URL : Type}

/-- The method `EachWithBreak`: the callback runs on the matched nodes in order
until it returns false. -/
def eachWithBreak {σ : Type} (f : Node → σ → Except Stop (σ × Bool)) :
    List Node → σ → Except Stop σ
  | [], acc => .ok acc
  | n :: ns, acc =>
    match f n acc with
    | .error e => .error e
    | .ok (acc1, true) => eachWithBreak f ns acc1
    | .ok (acc1, false) => .ok acc1

/-- The method `Text` on a selection: the texts of its nodes, concatenated. -/
def selectionText (env : Env Node URL) (sel : List Node) : String :=
  String.join (sel.map env.text)

/-- The method `Attr` on a selection: the attribute of its first node. -/
def selectionAttr (env : Env Node URL) (sel : List Node) (name : String) : Option String :=
  match sel with
  | [] => none
  | n :: _ => env.attr n name

/-- The function `readSiteMap`. -/
def readSiteMap (env : Env Node URL) : Except Stop Scraping :=
  match env.siteMapFile with
  | some sm => .ok sm
  | none => .error .halted

/-- The value one matched node adds in `selectorText`. -/
def textOf (env : Env Node URL) (selector : Selectors) (s : Node) : Except Stop String :=
  if selector.Regex ≠ "" then
    match env.regexCompile selector.Regex with
    | none => .error .halted
    | some re =>
      match re (env.text s) with
      | some matchText => .ok (trimSpace matchText)
      | none => .ok (trimSpace (env.text s))
  else .ok (trimSpace (env.text s))

/-- The function `selectorText`. -/
def selectorText (env : Env Node URL) (doc : Node) (selector : Selectors) :
    Except Stop (List String) :=
  eachWithBreak
    (fun s text =>
      match textOf env selector s with
      | .error e => .error e
      | .ok t => .ok (text ++ [t], selector.Multiple))
    (env.find doc selector.Selector) []

/-- The function `toFixedURL` of `backend.go`.  The error of parsing `href` is
overwritten by that of parsing `baseURL`: a base that does not parse exits the
process, a reference that does not parse is a nil pointer in `ResolveReference`. -/
def toFixedURL (env : Env Node URL) (href baseURL : String) : Except Stop String :=
  match env.urlParse href, env.urlParse baseURL with
  | _, none => .error .halted
  | none, some _ => .error .halted
  | some uri, some base => .ok (env.urlString (env.resolveReference base uri))

/-- The function `selectorLink`. -/
def selectorLink (env : Env Node URL) (doc : Node) (selector : Selectors) (baseURL : String) :
    Except Stop (List String) :=
  eachWithBreak
    (fun s links =>
      match toFixedURL env ((env.attr s "href").getD "") baseURL with
      | .error e => .error e
      | .ok u => .ok (links ++ [u], selector.Multiple))
    (env.find doc selector.Selector) []

/-- The function `selectorElementAttribute`. -/
def selectorElementAttribute (env : Env Node URL) (doc : Node) (selector : Selectors) :
    Except Stop (List String) :=
  eachWithBreak
    (fun s links =>
      .ok (links ++ [(env.attr s selector.ExtractAttribute).getD ""], selector.Multiple))
    (env.find doc selector.Selector) []

/-- The function `selectorImage`. -/
def selectorImage (env : Env Node URL) (doc : Node) (selector : Selectors) :
    Except Stop (List String) :=
  eachWithBreak
    (fun s srcs => .ok (srcs ++ [(env.attr s "src").getD ""], selector.Multiple))
    (env.find doc selector.Selector) []

/-- One turn of the loop over `baseSiteMap.Selectors` in `selectorElement`, for the
matched node `s`. -/
def elementChild (env : Env Node URL) (selector : Selectors) (s : Node)
    (elementoutput : GoMap) (elementSelector : Selectors) : Except Stop GoMap :=
  match elementSelector.ParentSelectors with
  | [] => .error .halted
  | p :: _ =>
    if selector.ID = p then
      if elementSelector.Typ = "SelectorText" then
        .ok (mapSet elementoutput elementSelector.ID
          (.str (selectionText env (env.find s elementSelector.Selector))))
      else if elementSelector.Typ = "SelectorImage" then
        .ok (mapSet elementoutput elementSelector.ID
          (.str ((selectionAttr env (env.find s elementSelector.Selector) "src").getD "")))
      else if elementSelector.Typ = "SelectorLink" then
        .ok (mapSet elementoutput elementSelector.ID
          (.str ((selectionAttr env (env.find s elementSelector.Selector) "href").getD "")))
      else .ok elementoutput
    else .ok elementoutput

/-- The loop over `baseSiteMap.Selectors` in `selectorElement`. -/
def elementChildren (env : Env Node URL) (selector : Selectors) (s : Node) :
    GoMap → List Selectors → Except Stop GoMap
  | out, [] => .ok out
  | out, es :: rest =>
    match elementChild env selector s out es with
    | .error e => .error e
    | .ok out1 => elementChildren env selector s out1 rest

/-- The function `selectorElement`. -/
def selectorElement (env : Env Node URL) (doc : Node) (selector : Selectors) :
    Except Stop (List GoMap) :=
  match readSiteMap env with
  | .error e => .error e
  | .ok baseSiteMap =>
    eachWithBreak
      (fun s elementoutputList =>
        match elementChildren env selector s [] baseSiteMap.Selectors with
        | .error e => .error e
        | .ok elementoutput =>
          if elementoutput.length ≠ 0 then
            .ok (elementoutputList ++ [elementoutput], selector.Multiple)
          else .ok (elementoutputList, selector.Multiple))
      (env.find doc selector.Selector) []

/-- One `tr` in `selectorTable`: its `th` texts go to the headings; its `td`
texts, when there are any, make a row. -/
def tableRow (env : Env Node URL) (acc : List String × List (List String)) (rowhtml : Node) :
    List String × List (List String) :=
  let headings := acc.1 ++ (env.find rowhtml "th").map env.text
  let row := (env.find rowhtml "td").map env.text
  if row.length ≠ 0 then (headings, acc.2 ++ [row]) else (headings, acc.2)

/-- One matched table in `selectorTable`. -/
def tableRows (env : Env Node URL) (acc : List String × List (List String)) (tablehtml : Node) :
    List String × List (List String) :=
  (env.find tablehtml "tr").foldl (tableRow env) acc

/-- The headings and rows `selectorTable` collects with `Each` over every matched
node. -/
def tableData (env : Env Node URL) (doc : Node) (selector : Selectors) :
    List String × List (List String) :=
  (env.find doc selector.Selector).foldl (tableRows env) ([], [])

/-- The function `selectorTable`. -/
def selectorTable (env : Env Node URL) (doc : Node) (selector : Selectors) : GoMap :=
  mapSet (mapSet [] "header" (.strs (tableData env doc selector).1))
    "rows" (.rows (tableData env doc selector).2)

end Evaluators

/-! ## The worker and the scraper of `backend.go` -/

/-- The function `HasElem` on a slice of strings. -/
def HasElem : List String → String → Bool
  | [], _ => false
  | x :: xs, elem => if x = elem then true else HasElem xs elem

/-- The output file of the run: absent, holding text that does not decode to a
JSON object, or holding the document `data`. -/
inductive OutputFile where
  | missing
  | undecodable
  | document (data : GoMap)

/-- What a run has done outside the memory of `scraper`: the URLs handed to the
fetcher, in order, and the output file. -/
structure World where
  fetched : List String
  outputFile : OutputFile

/-- What the loop over the selectors of one job changes: the map `linkOutput`,
the slice `job.siteMap.StartURL` shared by the jobs of one `scraper` call, and the
world. -/
structure JobState where
  linkOutput : GoMap
  StartURL : List String
  world : World

section Worker

variable {Node URL : Type}

/-- The loop of `getChildSelector` counting the selectors whose first parent is
`selector`. -/
def countChildren (selector : Selectors) : Nat → List Selectors → Except Stop Nat
  | count, [] => .ok count
  | count, childSelector :: rest =>
    match childSelector.ParentSelectors with
    | [] => .error .halted
    | p :: _ =>
      if selector.ID = p then countChildren selector (count + 1) rest
      else countChildren selector count rest

/-- The function `getChildSelector`: true when no selector of the sitemap file has
`selector` as its first parent. -/
def getChildSelector (env : Env Node URL) (selector : Selectors) : Except Stop Bool :=
  match readSiteMap env with
  | .error e => .error e
  | .ok baseSiteMap =>
    match countChildren selector 0 baseSiteMap.Selectors with
    | .error e => .error e
    | .ok count => .ok (count == 0)

/-- The function `getSiteMap`. -/
def getSiteMap (env : Env Node URL) (startURL : List String) (selector : Selectors) :
    Except Stop Scraping :=
  match readSiteMap env with
  | .error e => .error e
  | .ok baseSiteMap => .ok (Scraping.mk selector.ID startURL baseSiteMap.Selectors)

/-- The store of a Text or Image result in `linkOutput`: nothing for no match, the
bare string for one, the list otherwise. -/
def storeCollapsed (linkOutput : GoMap) (id : String) (resultText : List String) : GoMap :=
  if resultText.length ≠ 0 then
    if resultText.length = 1 then mapSet linkOutput id (.str (resultText.getD 0 ""))
    else mapSet linkOutput id (.strs resultText)
  else linkOutput

/-- The loop of the worker appending the links of a selector that is its own
parent to `job.siteMap.StartURL`. -/
def appendLinks : List String → List String → List String
  | startURL, [] => startURL
  | startURL, link :: links =>
    if !HasElem startURL link then appendLinks (startURL ++ [link]) links
    else appendLinks startURL links

/-- One turn of the loop of `worker` over `job.siteMap.Selectors`, for the job with
the given parent, start URL and document.  `scrape` is the function `scraper`
called for a nested evaluation. -/
def workerSelector (env : Env Node URL)
    (scrape : Scraping → String → World → Except Stop (GoMap × List String × World))
    (parent startURL : String) (doc : Node) (st : JobState) (selector : Selectors) :
    Except Stop JobState :=
  match selector.ParentSelectors with
  | [] => .error .halted
  | p :: _ =>
    if parent = p then
      if selector.Typ = "SelectorText" then
        match selectorText env doc selector with
        | .error e => .error e
        | .ok resultText =>
          .ok { st with linkOutput := storeCollapsed st.linkOutput selector.ID resultText }
      else if selector.Typ = "SelectorLink" then
        match selectorLink env doc selector startURL with
        | .error e => .error e
        | .ok links =>
          if HasElem selector.ParentSelectors selector.ID then
            .ok { st with StartURL := appendLinks st.StartURL links }
          else
            match getChildSelector env selector with
            | .error e => .error e
            | .ok childSelector =>
              if childSelector = true then
                .ok { st with linkOutput := mapSet st.linkOutput selector.ID (.strs links) }
              else
                match getSiteMap env links selector with
                | .error e => .error e
                | .ok newSiteMap =>
                  match scrape newSiteMap selector.ID st.world with
                  | .error e => .error e
                  | .ok (result, _, world1) =>
                    .ok { st with
                      linkOutput := mapSet st.linkOutput selector.ID (.map result)
                      world := world1 }
      else if selector.Typ = "SelectorElementAttribute" then
        match selectorElementAttribute env doc selector with
        | .error e => .error e
        | .ok resultText =>
          .ok { st with linkOutput := mapSet st.linkOutput selector.ID (.strs resultText) }
      else if selector.Typ = "SelectorImage" then
        match selectorImage env doc selector with
        | .error e => .error e
        | .ok resultText =>
          .ok { st with linkOutput := storeCollapsed st.linkOutput selector.ID resultText }
      else if selector.Typ = "SelectorElement" then
        match selectorElement env doc selector with
        | .error e => .error e
        | .ok resultText =>
          .ok { st with
            linkOutput := mapSet st.linkOutput selector.ID (.list (resultText.map Value.map)) }
      else if selector.Typ = "SelectorTable" then
        .ok { st with
          linkOutput := mapSet st.linkOutput selector.ID (.map (selectorTable env doc selector)) }
      else .ok st
    else .ok st

/-- The loop of `worker` over `job.siteMap.Selectors`. -/
def workerSelectors (env : Env Node URL)
    (scrape : Scraping → String → World → Except Stop (GoMap × List String × World))
    (parent startURL : String) (doc : Node) : JobState → List Selectors → Except Stop JobState
  | st, [] => .ok st
  | st, selector :: rest =>
    match workerSelector env scrape parent startURL doc st selector with
    | .error e => .error e
    | .ok st1 => workerSelectors env scrape parent startURL doc st1 rest

/-- The document a worker gets for a URL.  Every job is taken in the inner loop
of the first user agent, so that one is sent with every request. -/
def fetchDoc (env : Env Node URL) (url : String) : Option (Option Node) :=
  if env.JavaScript then env.emulateURL url (env.UserAgents.headD "")
  else env.crawlURL url (env.UserAgents.headD "")

/-- The function `validURL`. -/
def validURL (env : Env Node URL) (uri : String) : Bool := env.parseRequestURI uri

/-- The root path of the sink of `scraper` for one job with a non-empty
`linkOutput`: read the output file, set the entry of the start URL, write the
file in the format `settings.Export`.  A missing file exits; a file that does not
decode leaves `data` nil and the assignment panics; `xml.MarshalIndent` rejects a
map and the process exits; the rows appended for `csv` follow the text already
in the file, which no longer decodes. -/
def rootSink (env : Env Node URL) (file : OutputFile) (startURL : String) (linkOutput : GoMap) :
    Except Stop OutputFile :=
  match file with
  | .missing => .error .halted
  | .undecodable => .error .halted
  | .document data =>
    if env.Export = "xml" then .error .halted
    else if env.Export = "csv" then .ok .undecodable
    else if env.Export = "json" then .ok (.document (mapSet data startURL (.map linkOutput)))
    else .ok (.document data)

/-- The body of the loop of `worker` over the jobs, for the job of one start URL:
the fetch, then the loop over the selectors starting from an empty `linkOutput`.
The result is the `linkOutput` sent on `results` (none for a nil document, when
the job is skipped), the slice `job.siteMap.StartURL` and the world. -/
def worker (env : Env Node URL)
    (scrape : Scraping → String → World → Except Stop (GoMap × List String × World))
    (parent startURL : String) (selectors : List Selectors) (urls : List String) (w : World) :
    Except Stop (Option GoMap × List String × World) :=
  match fetchDoc env startURL with
  | none => .error .halted
  | some none => .ok (none, urls, World.mk (w.fetched ++ [startURL]) w.outputFile)
  | some (some doc) =>
    match workerSelectors env scrape parent startURL doc
        (JobState.mk [] urls (World.mk (w.fetched ++ [startURL]) w.outputFile)) selectors with
    | .error e => .error e
    | .ok st => .ok (some st.linkOutput, st.StartURL, st.world)

/-- The jobs of one `scraper` call, one per URL the producer sends, each followed
by the sink.  They are taken in the order sent, the order of a single worker.
The accumulator is `pageOutput`, the slice `siteMap.StartURL` and the world. -/
def scraperJobs (env : Env Node URL)
    (scrape : Scraping → String → World → Except Stop (GoMap × List String × World))
    (parent : String) (selectors : List Selectors) :
    List String → GoMap × List String × World → Except Stop (GoMap × List String × World)
  | [], acc => .ok acc
  | startURL :: rest, (pageOutput, urls, w) =>
    match worker env scrape parent startURL selectors urls w with
    | .error e => .error e
    | .ok (none, urls1, w1) =>
      scraperJobs env scrape parent selectors rest (pageOutput, urls1, w1)
    | .ok (some linkOutput, urls1, w1) =>
      if linkOutput.length ≠ 0 then
        if parent = "_root" then
          match rootSink env w1.outputFile startURL linkOutput with
          | .error e => .error e
          | .ok file =>
            scraperJobs env scrape parent selectors rest
              (pageOutput, urls1, World.mk w1.fetched file)
        else
          scraperJobs env scrape parent selectors rest
            (mapSet pageOutput startURL (.map linkOutput), urls1, w1)
      else
        scraperJobs env scrape parent selectors rest (pageOutput, urls1, w1)

/-- The body of `scraper`, with the nested calls going to `scrape`.  The producer
calls `getURL(siteMap.StartURL)` once, before it sends the first job, and `getURL`
ranges over the slice it was handed: the jobs are the expansion of the start URLs
the call began with.  Without a worker no job is taken and the map returned is
empty.  The result is the returned map, the final `siteMap.StartURL` and the
world. -/
def scraperBody (env : Env Node URL)
    (scrape : Scraping → String → World → Except Stop (GoMap × List String × World))
    (siteMap : Scraping) (parent : String) (w : World) :
    Except Stop (GoMap × List String × World) :=
  if env.Workers = 0 then .ok ([], siteMap.StartURL, w)
  else
    scraperJobs env scrape parent siteMap.Selectors
      ((getURL siteMap.StartURL).filter (validURL env)) ([], siteMap.StartURL, w)

/-- The function `scraper` of `backend.go`; the fuel bounds the depth of nested
evaluations. -/
def scraper (env : Env Node URL) :
    Nat → Scraping → String → World → Except Stop (GoMap × List String × World)
  | 0, _, _, _ => .error .fuel
  | fuel + 1, siteMap, parent, w => scraperBody env (scraper env fuel) siteMap parent w

end Worker

/-! ## A concrete world: pages as trees

The scenarios run the program on pages written as trees.  The queries used are a
tag name, or a tag name and a class; the references resolved are empty, absolute
or rooted at the host. -/

/-- An HTML node: a text node or an element with its attributes and children. -/
inductive Html where
  | text (data : String)
  | elem (tag : String) (attrs : List (String × String)) (kids : List Html)

mutual
/-- The text of a node as goquery reads it: the text nodes below it, in order. -/
def Html.innerText : Html → String
  | .text data => data
  | .elem _ _ kids => Html.innerTextList kids
/-- The texts of a list of nodes, concatenated. -/
def Html.innerTextList : List Html → String
  | [] => ""
  | h :: t => h.innerText ++ Html.innerTextList t
end

/-- A node as a list of elements: itself when it is an element, nothing when it
is a text node. -/
def Html.asElement : Html → List Html
  | .text _ => []
  | .elem tag attrs kids => [.elem tag attrs kids]

mutual
/-- The elements strictly below a node, in document order. -/
def Html.descendants : Html → List Html
  | .text _ => []
  | .elem _ _ kids => Html.descendantsList kids
/-- The elements of a list of siblings with the elements below them, in document
order. -/
def Html.descendantsList : List Html → List Html
  | [] => []
  | h :: t => h.asElement ++ (h.descendants ++ Html.descendantsList t)
end

/-- The value of the first attribute named `name`. -/
def Html.attr : Html → String → Option String
  | .text _, _ => none
  | .elem _ attrs _, name => (attrs.find? (fun a => a.1 == name)).map Prod.snd

/-- Whether an element has the tag and, when `cls` is not empty, the class. -/
def Html.hasTagClass (tag cls : List Char) : Html → Bool
  | .text _ => false
  | .elem t attrs _ =>
    t.data == tag &&
      (cls.isEmpty ||
        (splitAux ' ' [] (((attrs.find? (fun a => a.1 == "class")).map Prod.snd).getD "").data).contains cls)

/-- The query `tag` or `tag.class` on the elements below a node. -/
def Html.find (h : Html) (query : String) : List Html :=
  match splitAux '.' [] query.data with
  | [tag] => h.descendants.filter (Html.hasTagClass tag [])
  | [tag, cls] => h.descendants.filter (Html.hasTagClass tag cls)
  | _ => []

/-- Whether a pattern is made of letters, digits and blanks only, so that it
matches exactly its own text. -/
def isLiteralPattern (pattern : String) : Bool :=
  pattern.data.all (fun c => c.isAlphanum || c == ' ')

/-- Whether `pat` occurs in the text. -/
def occursIn (pat : List Char) : List Char → Bool
  | [] => pat.isEmpty
  | c :: cs => pat.isPrefixOf (c :: cs) || occursIn pat cs

/-- The text found by a literal pattern. -/
def literalFind (pattern text : String) : Option String :=
  if occursIn pattern.data text.data then some pattern else none

/-- The characters up to the third `/`, the scheme and host of an absolute URL. -/
def originOf : Nat → List Char → List Char
  | _, [] => []
  | n, c :: cs =>
    if c = '/' then (if n = 2 then [] else c :: originOf (n + 1) cs) else c :: originOf n cs

/-- Reference resolution for the references of the scenarios: the empty reference
gives the base, a reference rooted at `/` replaces the path of the base, any other
reference is absolute and stands for itself. -/
def resolveSimple (base ref : String) : String :=
  match ref.data with
  | [] => base
  | '/' :: _ => ⟨originOf 0 base.data ++ ref.data⟩
  | _ => ref

/-- The environment of a run over the given pages: a URL without a page is a
failed request, every string parses as a URL and is a valid request URI, and a
pattern of letters, digits and blanks finds its own text.  The scenarios use no
other pattern; this environment has one fail to compile. -/
def pageEnv (pages : List (String × Html)) (siteMapFile : Option Scraping) (workers : Nat)
    (format : String) : Env Html String where
  find := Html.find
  text := Html.innerText
  attr := Html.attr
  regexCompile := fun pattern => if isLiteralPattern pattern then some (literalFind pattern) else none
  urlParse := some
  resolveReference := resolveSimple
  urlString := id
  parseRequestURI := fun _ => true
  crawlURL := fun url _ => (pages.lookup url).map some
  emulateURL := fun url _ => (pages.lookup url).map some
  siteMapFile := siteMapFile
  Workers := workers
  JavaScript := false
  UserAgents := []
  Export := format

/-- The matches `EachWithBreak` reaches when the callback returns `multiple`: all
of them, or the first alone. -/
def processed {Node : Type} (multiple : Bool) (nodes : List Node) : List Node :=
  if multiple then nodes else nodes.take 1

/-! ## Scenario pages and sitemaps -/

/-- A parsed page: the document node over `html`, `head` and `body`. -/
def page (body : List Html) : Html :=
  .elem "#document" [] [.elem "html" [] [.elem "head" [] [], .elem "body" [] body]]

/-- A table cell. -/
def td (s : String) : Html := .elem "td" [] [.text s]

/-- A heading cell. -/
def th (s : String) : Html := .elem "th" [] [.text s]

/-- A table of the given rows, under the `tbody` the parser inserts. -/
def table (rows : List (List Html)) : Html :=
  .elem "table" [] [.elem "tbody" [] (rows.map (fun cells => .elem "tr" [] cells))]

/-- The world before the first job of a run exporting JSON: nothing fetched, the
output file holding `{}`. -/
def world0 : World := World.mk [] (.document [])

/-- The selector of scenario S4. -/
def nextSelector : Selectors :=
  Selectors.mk "next" "SelectorLink" ["_root", "next"] "a.next" false "" 0 ""

/-- The sitemap of scenario S4. -/
def s4SiteMap : Scraping := Scraping.mk "" ["http://x/1"] [nextSelector]

/-- The first page of scenario S4. -/
def s4StartPage : Html :=
  page [.elem "a" [("class", "next"), ("href", "/2")] [.text "next"]]

/-- The pages of scenario S4: page 1 links to page 2, page 2 to page 3, page 3
has no `a.next`. -/
def s4Pages : List (String × Html) :=
  [("http://x/1", s4StartPage),
   ("http://x/2", page [.elem "a" [("class", "next"), ("href", "/3")] [.text "next"]]),
   ("http://x/3", page [.elem "p" [] [.text "the end"]])]

/-- The environment of scenario S4, with one worker and JSON export. -/
def s4Env : Env Html String := pageEnv s4Pages (some s4SiteMap) 1 "json"

/-- A Table selector with `multiple` false. -/
def tableSelector : Selectors :=
  Selectors.mk "t" "SelectorTable" ["_root"] "table" false "" 0 ""

/-- The table of scenario S5: a heading row of two cells and three rows of two
cells. -/
def s5Page : Html :=
  page [table [[th "h1", th "h2"], [td "a", td "b"], [td "c", td "d"], [td "e", td "f"]]]

/-- A page with two tables one after the other. -/
def twoTablesPage : Html :=
  page [table [[th "h1"], [td "a"]], table [[th "h2"], [td "b"]]]

/-- A page with a table whose one cell holds the text `x` and a second table. -/
def nestedTablePage : Html :=
  page [table [[.elem "td" [] [.text "x", table [[td "y"]]]]]]

/-- An environment with no page and no sitemap file, for running the evaluators
on a document. -/
def docEnv : Env Html String := pageEnv [] none 1 "json"

/-- The selector of scenario S1. -/
def titleSelector : Selectors :=
  Selectors.mk "title" "SelectorText" ["_root"] "h1" false "" 0 ""

/-- The page of scenario S1. -/
def s1Page : Html := page [.elem "h1" [] [.text " Hello "]]

/-- A Text selector on `p` with the literal pattern `a `. -/
def regexSelector : Selectors :=
  Selectors.mk "para" "SelectorText" ["_root"] "p" true "a " 0 ""

/-- A page with a paragraph reading `a b` and a paragraph of blanks. -/
def paragraphsPage : Html :=
  page [.elem "p" [] [.text "a b"], .elem "p" [] [.text "  "]]

/-- A Link selector on `a` with `multiple` true and no child. -/
def linkSelector : Selectors :=
  Selectors.mk "link" "SelectorLink" ["_root"] "a" true "" 0 ""

/-- An Image selector on `img` with `multiple` true. -/
def imageSelector : Selectors :=
  Selectors.mk "img" "SelectorImage" ["_root"] "img" true "" 0 ""

/-- An ElementAttribute selector on `a` reading `title`, with `multiple` true. -/
def attributeSelector : Selectors :=
  Selectors.mk "attr" "SelectorElementAttribute" ["_root"] "a" true "" 0 "title"

/-- A page with an anchor without `href`, an anchor to `/p2`, and an image
without `src`. -/
def anchorsPage : Html :=
  page [.elem "a" [] [.text "bare"], .elem "a" [("href", "/p2")] [.text "two"],
        .elem "img" [] []]

/-- The Text selector of scenario S2, a child of `link`. -/
def bodySelector : Selectors :=
  Selectors.mk "body" "SelectorText" ["link"] "p" false "" 0 ""

/-- The sitemap of scenario S2. -/
def s2SiteMap : Scraping := Scraping.mk "" ["http://x/"] [linkSelector, bodySelector]

/-- The start page of scenario S2, with two anchors. -/
def s2StartPage : Html :=
  page [.elem "a" [("href", "/p1")] [.text "one"], .elem "a" [("href", "/p2")] [.text "two"]]

/-- The pages of scenario S2. -/
def s2Pages : List (String × Html) :=
  [("http://x/", s2StartPage),
   ("http://x/p1", page [.elem "p" [] [.text "A"]]),
   ("http://x/p2", page [.elem "p" [] [.text "B"]])]

/-- The environment of scenario S2. -/
def s2Env : Env Html String := pageEnv s2Pages (some s2SiteMap) 1 "json"

/-- A page with no anchor, image, table or heading. -/
def emptyPage : Html := page [.elem "p" [] [.text "nothing here"]]

/-- An Element selector on `div`. -/
def elementSelector : Selectors :=
  Selectors.mk "item" "SelectorElement" ["_root"] "div" true "" 0 ""

/-- A sitemap with one selector of every kind under `_root`. -/
def allKindsSiteMap : Scraping :=
  Scraping.mk "" ["http://x/"]
    [titleSelector, imageSelector, attributeSelector, elementSelector, tableSelector, linkSelector]

/-- The environment where `http://x/` is the empty page and the sitemap file
holds `allKindsSiteMap`. -/
def emptyEnv : Env Html String :=
  pageEnv [("http://x/", emptyPage)] (some allKindsSiteMap) 1 "json"

/-! ## The sequential scraper of `main.go`

The evaluators `SelectorText`, `SelectorElementAttribute`, `SelectorImage` and
`SelectorTable` of `main.go` have the text of their namesakes in `backend.go`
and are not repeated.  `base` is the value `readSiteMap` of `main.go` returns,
which logs a decoding error and goes on. -/

namespace MainGo

/-- What the loop over the selectors of one start URL changes in `main.go`: the
map `linkOutput`, the slice `siteMap.StartURL`, the bound `urlLength` and the
world. -/
structure MainState where
  linkOutput : GoMap
  StartURL : List String
  urlLength : Nat
  world : World

section Defs

variable {Node URL : Type}

/-- The function `toFixedURL` of `main.go`: the empty string when either URL does
not parse. -/
def toFixedURL (env : Env Node URL) (href baseURL : String) : String :=
  match env.urlParse href with
  | none => ""
  | some uri =>
    match env.urlParse baseURL with
    | none => ""
    | some base => env.urlString (env.resolveReference base uri)

/-- The function `SelectorLink`. -/
def SelectorLink (env : Env Node URL) (doc : Node) (selector : Selectors) (baseURL : String) :
    Except Stop (List String) :=
  eachWithBreak
    (fun s links =>
      .ok (links ++ [toFixedURL env ((env.attr s "href").getD "") baseURL], selector.Multiple))
    (env.find doc selector.Selector) []

/-- The function `SelectorElement`. -/
def SelectorElement (env : Env Node URL) (base : Scraping) (doc : Node) (selector : Selectors) :
    Except Stop (List GoMap) :=
  eachWithBreak
    (fun s elementoutputList =>
      match elementChildren env selector s [] base.Selectors with
      | .error e => .error e
      | .ok elementoutput =>
        if elementoutput.length ≠ 0 then
          .ok (elementoutputList ++ [elementoutput], selector.Multiple)
        else .ok (elementoutputList, selector.Multiple))
    (env.find doc selector.Selector) []

/-- The function `getChildSelector`. -/
def getChildSelector (base : Scraping) (selector : Selectors) : Except Stop Bool :=
  match countChildren selector 0 base.Selectors with
  | .error e => .error e
  | .ok count => .ok (count == 0)

/-- The function `getSiteMap`. -/
def getSiteMap (base : Scraping) (startURL : List String) (selector : Selectors) : Scraping :=
  Scraping.mk selector.ID startURL base.Selectors

/-- An evaluator run on the document `crawlURL` returned: a nil document is a
nil pointer at the first `Find`. -/
def onDoc {α : Type} (doc : Option Node) (f : Node → Except Stop α) : Except Stop α :=
  match doc with
  | none => .error .halted
  | some d => f d

/-- One turn of the loop of `scraper` over `siteMap.Selectors`, for one start URL.
The page is fetched anew for every selector of the scope; a failed request ends
in a nil pointer on the response. -/
def scraperSelector (env : Env Node URL) (base : Scraping)
    (scrape : Scraping → String → World → Except Stop (GoMap × List String × World))
    (parent startURL : String) (st : MainState) (selector : Selectors) :
    Except Stop MainState :=
  match selector.ParentSelectors with
  | [] => .error .halted
  | p :: _ =>
    if parent = p then
      match env.crawlURL startURL "" with
      | none => .error .halted
      | some doc =>
        let w1 := World.mk (st.world.fetched ++ [startURL]) st.world.outputFile
        if selector.Typ = "SelectorText" then
          match onDoc doc (fun d => selectorText env d selector) with
          | .error e => .error e
          | .ok resultText =>
            .ok { st with
              linkOutput := storeCollapsed st.linkOutput selector.ID resultText
              world := w1 }
        else if selector.Typ = "SelectorLink" then
          match onDoc doc (fun d => SelectorLink env d selector startURL) with
          | .error e => .error e
          | .ok links =>
            if HasElem selector.ParentSelectors selector.ID then
              .ok { st with
                StartURL := appendLinks st.StartURL links
                urlLength := (appendLinks st.StartURL links).length
                world := w1 }
            else
              match getChildSelector base selector with
              | .error e => .error e
              | .ok childSelector =>
                if childSelector = true then
                  .ok { st with
                    linkOutput := mapSet st.linkOutput selector.ID (.strs links)
                    world := w1 }
                else
                  match scrape (getSiteMap base links selector) selector.ID w1 with
                  | .error e => .error e
                  | .ok (result, _, world1) =>
                    .ok { st with
                      linkOutput := mapSet st.linkOutput selector.ID (.map result)
                      world := world1 }
        else if selector.Typ = "SelectorElementAttribute" then
          match onDoc doc (fun d => selectorElementAttribute env d selector) with
          | .error e => .error e
          | .ok resultText =>
            .ok { st with
              linkOutput := mapSet st.linkOutput selector.ID (.strs resultText)
              world := w1 }
        else if selector.Typ = "SelectorImage" then
          match onDoc doc (fun d => selectorImage env d selector) with
          | .error e => .error e
          | .ok resultText =>
            .ok { st with
              linkOutput := storeCollapsed st.linkOutput selector.ID resultText
              world := w1 }
        else if selector.Typ = "SelectorElement" then
          match onDoc doc (fun d => SelectorElement env base d selector) with
          | .error e => .error e
          | .ok resultText =>
            .ok { st with
              linkOutput := mapSet st.linkOutput selector.ID (.list (resultText.map Value.map))
              world := w1 }
        else if selector.Typ = "SelectorTable" then
          match onDoc doc (fun d => .ok (selectorTable env d selector)) with
          | .error e => .error e
          | .ok resultText =>
            .ok { st with
              linkOutput := mapSet st.linkOutput selector.ID (.map resultText)
              world := w1 }
        else .ok { st with world := w1 }
    else .ok st

/-- The loop of `scraper` over `siteMap.Selectors`. -/
def scraperSelectors (env : Env Node URL) (base : Scraping)
    (scrape : Scraping → String → World → Except Stop (GoMap × List String × World))
    (parent startURL : String) : MainState → List Selectors → Except Stop MainState
  | st, [] => .ok st
  | st, selector :: rest =>
    match scraperSelector env base scrape parent startURL st selector with
    | .error e => .error e
    | .ok st1 => scraperSelectors env base scrape parent startURL st1 rest

/-- The root path of `scraper`: read `output.json`, set the entry of the start URL,
write the file back; a missing file or one that does not decode exits. -/
def rootSink (file : OutputFile) (startURL : String) (linkOutput : GoMap) :
    Except Stop OutputFile :=
  match file with
  | .missing => .error .halted
  | .undecodable => .error .halted
  | .document data => .ok (.document (mapSet data startURL (.map linkOutput)))

/-- The loop `for i := 0; i < urlLength; i++` of `scraper` from the index `i`; the
fuel bounds the number of turns.  The accumulator is `output`, the slice
`siteMap.StartURL`, `urlLength` and the world. -/
def scraperLoop (env : Env Node URL) (base : Scraping)
    (scrape : Scraping → String → World → Except Stop (GoMap × List String × World))
    (parent : String) (selectors : List Selectors) :
    Nat → Nat → GoMap × List String × Nat × World → Except Stop (GoMap × List String × World)
  | 0, _, _ => .error .fuel
  | fuel + 1, i, (output, urls, urlLength, w) =>
    if i < urlLength then
      match urls.get? i with
      | none => .error .halted
      | some startURL =>
        match scraperSelectors env base scrape parent startURL
            (MainState.mk [] urls urlLength w) selectors with
        | .error e => .error e
        | .ok st =>
          if st.linkOutput.length ≠ 0 then
            if parent = "_root" then
              match rootSink st.world.outputFile startURL st.linkOutput with
              | .error e => .error e
              | .ok file =>
                scraperLoop env base scrape parent selectors fuel (i + 1)
                  (output, st.StartURL, st.urlLength, World.mk st.world.fetched file)
            else
              scraperLoop env base scrape parent selectors fuel (i + 1)
                (mapSet output startURL (.map st.linkOutput), st.StartURL, st.urlLength,
                  st.world)
          else
            scraperLoop env base scrape parent selectors fuel (i + 1)
              (output, st.StartURL, st.urlLength, st.world)
    else .ok (output, urls, w)

/-- The function `scraper` of `main.go`; the fuel bounds the depth of nested
evaluations and the number of turns of each loop over the start URLs. -/
def scraper (env : Env Node URL) (base : Scraping) :
    Nat → Scraping → String → World → Except Stop (GoMap × List String × World)
  | 0, _, _, _ => .error .fuel
  | fuel + 1, siteMap, parent, w =>
    scraperLoop env base (scraper env base fuel) parent siteMap.Selectors (fuel + 1) 0
      ([], siteMap.StartURL, siteMap.StartURL.length, w)

end Defs

end MainGo

/-- What `readSiteMap` of `backend.go` decodes from a `sitemap.json` of the shape
`{Settings, Sitemap}`, the shape `readJSON` reads and `writeJSON` writes:
`json.Unmarshal` into a bare `scraping` finds none of the keys `_id`, `startUrl`
and `selectors` at the top level, skips the keys it does not know, and leaves
the zero value without an error. -/
def bareDecode : Scraping := Scraping.mk "" [] []

/-- The environment of scenario S2 when `sitemap.json` has the shape
`{Settings, Sitemap}`, with `s2SiteMap` under `Sitemap`: the scraper runs on the
sitemap `readJSON` loaded and `readSiteMap` returns `bareDecode`. -/
def s2FileEnv : Env Html String := pageEnv s2Pages (some bareDecode) 1 "json"

/-- A sitemap with the start URL `http://x/` and no selector. -/
def noSelectorSiteMap : Scraping := Scraping.mk "" ["http://x/"] []

/-- The environment where `http://x/` is the page of S1 and the sitemap has no
selector. -/
def noSelectorEnv : Env Html String :=
  pageEnv [("http://x/", s1Page)] (some noSelectorSiteMap) 1 "json"

/-- A Text selector on `h1` listing `_root` first and `link` second among its
parents. -/
def sharedSelector : Selectors :=
  Selectors.mk "heading" "SelectorText" ["_root", "link"] "h1" false "" 0 ""

/-- A Text child of `item` on `span`. -/
def nameSelector : Selectors :=
  Selectors.mk "name" "SelectorText" ["item"] "span" false "" 0 ""

/-- An Image child of `item` on `img`. -/
def pictureSelector : Selectors :=
  Selectors.mk "picture" "SelectorImage" ["item"] "img" false "" 0 ""

/-- A Link child of `item` on `a`. -/
def moreSelector : Selectors :=
  Selectors.mk "more" "SelectorLink" ["item"] "a" false "" 0 ""

/-- An ElementAttribute child of `item` on `a`. -/
def noteSelector : Selectors :=
  Selectors.mk "note" "SelectorElementAttribute" ["item"] "a" false "" 0 "title"

/-- The sitemap of the Element selector `item` and its four children. -/
def elementSiteMap : Scraping :=
  Scraping.mk "" ["http://x/"]
    [elementSelector, nameSelector, pictureSelector, moreSelector, noteSelector]

/-- A page with one `div` holding two `span`, reading `a` and `b`, an image and an
anchor. -/
def elementPage : Html :=
  page [.elem "div" []
    [.elem "span" [] [.text "a"], .elem "span" [] [.text "b"],
     .elem "img" [("src", "/i.png")] [],
     .elem "a" [("href", "/more"), ("title", "t")] [.text "more"]]]

/-- The environment where `http://x/` is `elementPage` and the sitemap file holds
`elementSiteMap`. -/
def elementEnv : Env Html String :=
  pageEnv [("http://x/", elementPage)] (some elementSiteMap) 1 "json"

/-- Whether the selector `c` of the sitemap file gives an entry in the mappings of
the Element selector `selector`: its first parent is the id of `selector` and its
kind is Text, Image or Link. -/
def contributes (selector c : Selectors) : Bool :=
  (c.ParentSelectors.head? == some selector.ID) &&
    (c.Typ == "SelectorText" || c.Typ == "SelectorImage" || c.Typ == "SelectorLink")

/-- The value of the entry of the child `c` for the matched node `s`: for Text the
text of the whole selection found by the query of `c`, for Image the `src` and
for Link the `href` of the first node found, the empty string when there is
none. -/
def childValue {Node URL : Type} (env : Env Node URL) (s : Node) (c : Selectors) : String :=
  if c.Typ = "SelectorText" then selectionText env (env.find s c.Selector)
  else if c.Typ = "SelectorImage" then (selectionAttr env (env.find s c.Selector) "src").getD ""
  else (selectionAttr env (env.find s c.Selector) "href").getD ""

/-- The mapping of one matched node: one entry for every contributing child, in
the order of the sitemap file. -/
def elementMap {Node URL : Type} (env : Env Node URL) (selector : Selectors)
    (sels : List Selectors) (s : Node) : GoMap :=
  (sels.filter (contributes selector)).map (fun c => (c.ID, Value.str (childValue env s c)))

/-- The headings the spec's words ask of `selectorTable`, read through `Find`: for
every matched table in order and every `tr` found in it in order, the texts of the
`th` found in that `tr`. -/
def tableHeaderSpec {Node URL : Type} (env : Env Node URL) (tables : List Node) : List String :=
  tables.flatMap (fun t => (env.find t "tr").flatMap (fun r => (env.find r "th").map env.text))

/-- The row a `tr` gives: the texts of the `td` found in it, when there are any. -/
def rowOf {Node URL : Type} (env : Env Node URL) (r : Node) : Option (List String) :=
  if ((env.find r "td").map env.text).length ≠ 0 then some ((env.find r "td").map env.text)
  else none

/-- The rows the spec's words ask of `selectorTable`, read through `Find`: for
every matched table in order and every `tr` found in it in order, the row of that
`tr` when it has one. -/
def tableRowsSpec {Node URL : Type} (env : Env Node URL) (tables : List Node) :
    List (List String) :=
  tables.flatMap (fun t => (env.find t "tr").filterMap (rowOf env))

/-! ## Lemmas on maps and lists -/

theorem mapGet_mapSet_self (m : GoMap) (k : String) (v : Value) :
    mapGet (mapSet m k v) k = some v := by
  induction m with
  | nil => simp [mapSet, mapGet]
  | cons kv m ih =>
    obtain ⟨k1, v1⟩ := kv
    by_cases h : k1 = k
    · simp [mapSet, mapGet, h]
    · simp [mapSet, mapGet, h, ih]

theorem mapGet_mapSet_ne (m : GoMap) (k k2 : String) (v : Value) (h : k ≠ k2) :
    mapGet (mapSet m k v) k2 = mapGet m k2 := by
  induction m with
  | nil => simp [mapSet, mapGet, h]
  | cons kv m ih =>
    obtain ⟨k1, v1⟩ := kv
    by_cases h1 : k1 = k
    · subst h1
      simp [mapSet, mapGet, h]
    · by_cases h2 : k1 = k2
      · subst h2
        simp [mapSet, mapGet, h1]
      · simp [mapSet, mapGet, h1, h2, ih]

theorem HasElem_iff (s : List String) (elem : String) : HasElem s elem = true ↔ elem ∈ s := by
  induction s with
  | nil => simp [HasElem]
  | cons x xs ih =>
    by_cases h : x = elem
    · simp [HasElem, h]
    · have h2 : ¬ elem = x := fun e => h e.symm
      simp [HasElem, h, h2, ih]

theorem appendLinks_spec (links : List String) :
    ∀ startURL : List String, ∃ added : List String,
      appendLinks startURL links = startURL ++ added ∧ added.Nodup ∧
      (∀ a ∈ added, a ∉ startURL) ∧ (∀ l ∈ links, l ∈ startURL ++ added) := by
  induction links with
  | nil =>
    intro startURL
    exact ⟨[], by simp [appendLinks], List.nodup_nil, by simp, by simp⟩
  | cons link links ih =>
    intro startURL
    by_cases h : link ∈ startURL
    · obtain ⟨added, h1, h2, h3, h4⟩ := ih startURL
      refine ⟨added, ?_, h2, h3, ?_⟩
      · simp [appendLinks, (HasElem_iff startURL link).2 h, h1]
      · intro l hl
        rcases List.mem_cons.1 hl with rfl | hl
        · exact List.mem_append_left _ h
        · exact h4 l hl
    · obtain ⟨added, h1, h2, h3, h4⟩ := ih (startURL ++ [link])
      have hne : HasElem startURL link = false := by
        cases hh : HasElem startURL link with
        | false => rfl
        | true => exact absurd ((HasElem_iff startURL link).1 hh) h
      refine ⟨link :: added, ?_, ?_, ?_, ?_⟩
      · simp [appendLinks, hne, h1]
      · refine List.nodup_cons.2 ⟨?_, h2⟩
        intro hmem
        exact h3 link hmem (by simp)
      · intro a ha
        rcases List.mem_cons.1 ha with rfl | ha
        · exact h
        · intro hs
          exact h3 a ha (List.mem_append_left _ hs)
      · intro l hl
        rcases List.mem_cons.1 hl with rfl | hl
        · simp
        · have := h4 l hl
          simpa using this

theorem trimLeft_eq_nil (l : List Char) : trimLeft l = [] ↔ ∀ c ∈ l, isSpace c = true := by
  induction l with
  | nil => simp [trimLeft]
  | cons c cs ih =>
    by_cases h : isSpace c = true
    · simp [trimLeft, h, ih]
    · simp [trimLeft, h]

theorem trimLeft_all_space (l : List Char) (h : ∀ c ∈ trimLeft l, isSpace c = true) :
    trimLeft l = [] := by
  induction l with
  | nil => simp [trimLeft]
  | cons c cs ih =>
    by_cases hc : isSpace c = true
    · simp only [trimLeft, hc, if_true] at h ⊢
      exact ih h
    · simp only [trimLeft, hc] at h
      exact absurd (h c (by simp)) hc

theorem trimSpace_eq_empty (t : String) :
    trimSpace t = "" ↔ ∀ c ∈ t.data, isSpace c = true := by
  have key : trimSpace t = "" ↔ trimLeft (trimLeft t.data).reverse = [] := by
    unfold trimSpace
    constructor
    · intro h
      have h2 := congrArg String.data h
      simpa using h2
    · intro h
      rw [h]
      rfl
  rw [key, trimLeft_eq_nil]
  constructor
  · intro h
    have h2 : trimLeft t.data = [] := trimLeft_all_space _ (fun c hc => h c (List.mem_reverse.2 hc))
    exact (trimLeft_eq_nil _).1 h2
  · intro h
    rw [(trimLeft_eq_nil _).2 h]
    simp

section EvaluatorLemmas

variable {Node URL : Type}

theorem processed_length_le_one (nodes : List Node) : (processed false nodes).length ≤ 1 := by
  cases nodes <;> simp [processed]

theorem eachWithBreak_collect {β : Type} (f : Node → List β → Except Stop (List β × Bool))
    (v : Node → β) (multiple : Bool) (nodes : List Node) :
    ∀ acc : List β,
      (∀ s ∈ processed multiple nodes, ∀ a : List β, f s a = .ok (a ++ [v s], multiple)) →
      eachWithBreak f nodes acc = .ok (acc ++ (processed multiple nodes).map v) := by
  induction nodes with
  | nil =>
    intro acc _
    cases multiple <;> simp [eachWithBreak, processed]
  | cons n ns ih =>
    intro acc h
    cases multiple with
    | false =>
      have hn := h n (by simp [processed]) acc
      simp [eachWithBreak, processed, hn]
    | true =>
      have hn := h n (by simp [processed]) acc
      have hrest : ∀ s ∈ processed true ns, ∀ a : List β, f s a = .ok (a ++ [v s], true) := by
        intro s hs
        apply h
        simp only [processed, if_true] at hs ⊢
        exact List.mem_cons_of_mem _ hs
      have := ih (acc ++ [v n]) hrest
      simp only [processed, if_true] at this ⊢
      simp [eachWithBreak, hn, this]

theorem selectorImage_eq (env : Env Node URL) (doc : Node) (selector : Selectors) :
    selectorImage env doc selector =
      .ok ((processed selector.Multiple (env.find doc selector.Selector)).map
        (fun s => (env.attr s "src").getD "")) := by
  unfold selectorImage
  rw [eachWithBreak_collect _ (fun s => (env.attr s "src").getD "") selector.Multiple _ []
    (fun _ _ _ => rfl)]
  simp

theorem selectorElementAttribute_eq (env : Env Node URL) (doc : Node) (selector : Selectors) :
    selectorElementAttribute env doc selector =
      .ok ((processed selector.Multiple (env.find doc selector.Selector)).map
        (fun s => (env.attr s selector.ExtractAttribute).getD "")) := by
  unfold selectorElementAttribute
  rw [eachWithBreak_collect _ (fun s => (env.attr s selector.ExtractAttribute).getD "")
    selector.Multiple _ [] (fun _ _ _ => rfl)]
  simp

theorem selectorLink_eq (env : Env Node URL) (doc : Node) (selector : Selectors)
    (baseURL : String) (v : Node → String)
    (h : ∀ s ∈ processed selector.Multiple (env.find doc selector.Selector),
      toFixedURL env ((env.attr s "href").getD "") baseURL = .ok (v s)) :
    selectorLink env doc selector baseURL =
      .ok ((processed selector.Multiple (env.find doc selector.Selector)).map v) := by
  unfold selectorLink
  rw [eachWithBreak_collect _ v selector.Multiple _ []
    (fun s hs a => by simp only [h s hs])]
  simp

theorem selectorText_eq (env : Env Node URL) (doc : Node) (selector : Selectors)
    (v : Node → String)
    (h : ∀ s ∈ processed selector.Multiple (env.find doc selector.Selector),
      textOf env selector s = .ok (v s)) :
    selectorText env doc selector =
      .ok ((processed selector.Multiple (env.find doc selector.Selector)).map v) := by
  unfold selectorText
  rw [eachWithBreak_collect _ v selector.Multiple _ []
    (fun s hs a => by simp only [h s hs])]
  simp

theorem tableRow_foldl (env : Env Node URL) (trs : List Node) :
    ∀ acc : List String × List (List String),
      trs.foldl (tableRow env) acc =
        (acc.1 ++ trs.flatMap (fun r => (env.find r "th").map env.text),
         acc.2 ++ trs.filterMap (rowOf env)) := by
  induction trs with
  | nil => intro acc; simp
  | cons r rs ih =>
    intro acc
    rw [List.foldl_cons, ih]
    by_cases h : ((env.find r "td").map env.text).length = 0
    · simp only [tableRow, rowOf, h, ne_eq, not_true_eq_false, if_false, List.flatMap_cons,
        List.filterMap_cons, List.append_assoc]
    · simp only [tableRow, rowOf, h, ne_eq, not_false_eq_true, if_true, List.flatMap_cons,
        List.filterMap_cons, List.append_assoc, List.singleton_append]

theorem tableRows_foldl (env : Env Node URL) (tables : List Node) :
    ∀ acc : List String × List (List String),
      tables.foldl (tableRows env) acc =
        (acc.1 ++ tableHeaderSpec env tables, acc.2 ++ tableRowsSpec env tables) := by
  induction tables with
  | nil => intro acc; simp [tableHeaderSpec, tableRowsSpec]
  | cons t ts ih =>
    intro acc
    rw [List.foldl_cons, ih]
    simp [tableRows, tableRow_foldl, tableHeaderSpec, tableRowsSpec]

theorem tableData_eq (env : Env Node URL) (doc : Node) (selector : Selectors) :
    tableData env doc selector =
      (tableHeaderSpec env (env.find doc selector.Selector),
       tableRowsSpec env (env.find doc selector.Selector)) := by
  unfold tableData
  rw [tableRows_foldl]
  simp

end EvaluatorLemmas

/-! ## Lemmas on the worker -/

section WorkerLemmas

variable {Node URL : Type}

theorem storeCollapsed_ne (m : GoMap) (id k : String) (raw : List String) (h : id ≠ k) :
    mapGet (storeCollapsed m id raw) k = mapGet m k := by
  unfold storeCollapsed
  split_ifs <;> simp [mapGet_mapSet_ne _ _ _ _ h]

theorem workerSelector_frame (env : Env Node URL)
    (scrape : Scraping → String → World → Except Stop (GoMap × List String × World))
    (parent startURL : String) (doc : Node) (st st1 : JobState) (selector : Selectors)
    (k : String) (h : workerSelector env scrape parent startURL doc st selector = .ok st1)
    (hk : selector.ID ≠ k) : mapGet st1.linkOutput k = mapGet st.linkOutput k := by
  unfold workerSelector at h
  repeat' split at h
  all_goals
    cases h <;> simp [storeCollapsed_ne _ _ _ _ hk, mapGet_mapSet_ne _ _ _ _ hk]

theorem workerSelectors_frame (env : Env Node URL)
    (scrape : Scraping → String → World → Except Stop (GoMap × List String × World))
    (parent startURL : String) (doc : Node) (k : String) (sels : List Selectors) :
    ∀ st0 st : JobState, workerSelectors env scrape parent startURL doc st0 sels = .ok st →
      (∀ s ∈ sels, s.ID ≠ k) → mapGet st.linkOutput k = mapGet st0.linkOutput k := by
  induction sels with
  | nil =>
    intro st0 st h _
    simp only [workerSelectors] at h
    cases h
    rfl
  | cons s rest ih =>
    intro st0 st h hne
    simp only [workerSelectors] at h
    split at h
    · cases h
    · rename_i st1 hstep
      rw [ih st1 st h (fun r hr => hne r (List.mem_cons_of_mem _ hr))]
      exact workerSelector_frame env scrape parent startURL doc st0 st1 s k hstep
        (hne s (List.mem_cons_self _ _))

/-- In a job that completes over selectors with distinct ids, the entry under the
id of a selector is the one its own turn of the loop leaves, and that turn starts
from a map with the entry the job began with. -/
theorem workerSelectors_entry (env : Env Node URL)
    (scrape : Scraping → String → World → Except Stop (GoMap × List String × World))
    (parent startURL : String) (doc : Node) (selector : Selectors) (sels : List Selectors) :
    ∀ st0 st : JobState, workerSelectors env scrape parent startURL doc st0 sels = .ok st →
      selector ∈ sels → (sels.map Selectors.ID).Nodup →
      ∃ sa sb : JobState,
        workerSelector env scrape parent startURL doc sa selector = .ok sb ∧
        mapGet sa.linkOutput selector.ID = mapGet st0.linkOutput selector.ID ∧
        mapGet st.linkOutput selector.ID = mapGet sb.linkOutput selector.ID := by
  induction sels with
  | nil => intro st0 st _ hmem; cases hmem
  | cons s rest ih =>
    intro st0 st h hmem hnd
    simp only [workerSelectors] at h
    rw [List.map_cons, List.nodup_cons] at hnd
    split at h
    · cases h
    · rename_i st1 hstep
      by_cases hs : selector = s
      · subst hs
        refine ⟨st0, st1, hstep, rfl, ?_⟩
        apply workerSelectors_frame env scrape parent startURL doc selector.ID rest st1 st h
        intro r hr heq
        exact hnd.1 (heq ▸ List.mem_map_of_mem Selectors.ID hr)
      · have hin : selector ∈ rest := by
          rcases List.mem_cons.1 hmem with e | e
          · exact absurd e hs
          · exact e
        obtain ⟨sa, sb, h1, h2, h3⟩ := ih st1 st h hin hnd.2
        refine ⟨sa, sb, h1, ?_, h3⟩
        rw [h2]
        apply workerSelector_frame env scrape parent startURL doc st0 st1 s selector.ID hstep
        intro heq
        exact hnd.1 (heq ▸ List.mem_map_of_mem Selectors.ID hin)

theorem workerSelector_text (env : Env Node URL)
    (scrape : Scraping → String → World → Except Stop (GoMap × List String × World))
    (parent startURL : String) (doc : Node) (st : JobState) (selector : Selectors)
    (ps : List String) (raw : List String)
    (hp : selector.ParentSelectors = parent :: ps) (ht : selector.Typ = "SelectorText")
    (hr : selectorText env doc selector = .ok raw) :
    workerSelector env scrape parent startURL doc st selector =
      .ok { st with linkOutput := storeCollapsed st.linkOutput selector.ID raw } := by
  unfold workerSelector
  simp [hp, ht, hr]

theorem workerSelector_image (env : Env Node URL)
    (scrape : Scraping → String → World → Except Stop (GoMap × List String × World))
    (parent startURL : String) (doc : Node) (st : JobState) (selector : Selectors)
    (ps : List String) (raw : List String)
    (hp : selector.ParentSelectors = parent :: ps) (ht : selector.Typ = "SelectorImage")
    (hr : selectorImage env doc selector = .ok raw) :
    workerSelector env scrape parent startURL doc st selector =
      .ok { st with linkOutput := storeCollapsed st.linkOutput selector.ID raw } := by
  unfold workerSelector
  simp [hp, ht, hr]

theorem countChildren_eq (selector : Selectors) (sels : List Selectors)
    (hpar : ∀ c ∈ sels, c.ParentSelectors ≠ []) :
    ∀ count : Nat, countChildren selector count sels =
      .ok (count + sels.countP (fun c => c.ParentSelectors.head? == some selector.ID)) := by
  induction sels with
  | nil => intro count; simp [countChildren]
  | cons c rest ih =>
    intro count
    have hc := hpar c (List.mem_cons_self _ _)
    have hrest : ∀ c ∈ rest, c.ParentSelectors ≠ [] :=
      fun d hd => hpar d (List.mem_cons_of_mem _ hd)
    cases hps : c.ParentSelectors with
    | nil => exact absurd hps hc
    | cons p ps =>
      by_cases hid : selector.ID = p
      · have hb : (some p == some selector.ID) = true := by simp [hid]
        simp only [countChildren, hps, hid, if_true, ih hrest, List.countP_cons, List.head?_cons]
        simp [hid, Nat.add_assoc, Nat.add_comm]
      · have hb : (some p == some selector.ID) = false := by
          simp only [beq_eq_false_iff_ne, ne_eq, Option.some.injEq]
          exact fun e => hid e.symm
        simp only [countChildren, hps, hid, if_false, ih hrest, List.countP_cons, List.head?_cons,
          hb]
        simp

/-- In a job that completes over selectors with distinct ids, the entry of a Text
or Image selector is the one `storeCollapsed` makes in the empty map. -/
theorem job_entry_collapsed (env : Env Node URL)
    (scrape : Scraping → String → World → Except Stop (GoMap × List String × World))
    (parent startURL : String) (doc : Node) (urls : List String) (w : World)
    (sels : List Selectors) (st : JobState) (selector : Selectors) (ps raw : List String)
    (hrun : workerSelectors env scrape parent startURL doc (JobState.mk [] urls w) sels = .ok st)
    (hmem : selector ∈ sels) (hid : (sels.map Selectors.ID).Nodup)
    (hp : selector.ParentSelectors = parent :: ps)
    (hk : (selector.Typ = "SelectorText" ∧ selectorText env doc selector = .ok raw) ∨
      (selector.Typ = "SelectorImage" ∧ selectorImage env doc selector = .ok raw)) :
    mapGet st.linkOutput selector.ID = mapGet (storeCollapsed [] selector.ID raw) selector.ID := by
  obtain ⟨sa, sb, hstep, hsa, hst⟩ :=
    workerSelectors_entry env scrape parent startURL doc selector sels _ st hrun hmem hid
  have hsb : sb.linkOutput = storeCollapsed sa.linkOutput selector.ID raw := by
    rcases hk with ⟨ht, hr⟩ | ⟨ht, hr⟩
    · rw [workerSelector_text env scrape parent startURL doc sa selector ps raw hp ht hr] at hstep
      cases hstep
      rfl
    · rw [workerSelector_image env scrape parent startURL doc sa selector ps raw hp ht hr] at hstep
      cases hstep
      rfl
  have hnone : mapGet sa.linkOutput selector.ID = none := by
    rw [hsa]
    rfl
  rw [hst, hsb]
  unfold storeCollapsed
  split_ifs
  · simp [mapGet_mapSet_self]
  · simp [mapGet_mapSet_self]
  · rw [hnone]
    rfl

/-- In a job that completes over selectors with distinct ids, a selector whose
turn of the loop always assigns `v` under its id has the entry `v`. -/
theorem job_entry_of_step (env : Env Node URL)
    (scrape : Scraping → String → World → Except Stop (GoMap × List String × World))
    (parent startURL : String) (doc : Node) (st0 : JobState)
    (sels : List Selectors) (st : JobState) (selector : Selectors) (v : Value)
    (hrun : workerSelectors env scrape parent startURL doc st0 sels = .ok st)
    (hmem : selector ∈ sels) (hid : (sels.map Selectors.ID).Nodup)
    (hstepv : ∀ sa sb : JobState,
      workerSelector env scrape parent startURL doc sa selector = .ok sb →
        sb.linkOutput = mapSet sa.linkOutput selector.ID v) :
    mapGet st.linkOutput selector.ID = some v := by
  obtain ⟨sa, sb, hstep, _, hst⟩ :=
    workerSelectors_entry env scrape parent startURL doc selector sels _ st hrun hmem hid
  rw [hst, hstepv sa sb hstep, mapGet_mapSet_self]

/-- An `EachWithBreak` whose callback always returns false and lengthens the list
by at most one leaves at most one element more. -/
theorem eachWithBreak_single {β : Type} (f : Node → List β → Except Stop (List β × Bool))
    (hf : ∀ s a x b, f s a = .ok (x, b) → b = false ∧ x.length ≤ a.length + 1)
    (nodes : List Node) (acc r : List β) (h : eachWithBreak f nodes acc = .ok r) :
    r.length ≤ acc.length + 1 := by
  cases nodes with
  | nil =>
    simp only [eachWithBreak] at h
    cases h
    omega
  | cons n ns =>
    simp only [eachWithBreak] at h
    split at h
    · cases h
    · rename_i acc1 hn
      exact absurd (hf n acc acc1 true hn).1 (by decide)
    · rename_i acc1 hn
      cases h
      exact (hf n acc r false hn).2

end WorkerLemmas

/-! ## Lemmas on the URL expander -/

theorem isNd_of_ascii (c : Char) (h : isAsciiDigit c = true) : isNd c = true := by
  unfold isNd
  rw [List.any_eq_true]
  refine ⟨0x30, by simp [ndZeros], ?_⟩
  simp only [isAsciiDigit, Bool.and_eq_true, decide_eq_true_eq] at h ⊢
  omega

theorem isNd_ne (c : Char) (h : isNd c = true) : c ≠ '[' ∧ c ≠ ']' ∧ c ≠ '-' ∧ c ≠ '\n' := by
  refine ⟨?_, ?_, ?_, ?_⟩ <;> (intro e; subst e; revert h; decide)

theorem takeDigits_spec (n : Nat) : ∀ (cs d r : List Char), takeDigits n cs = (d, r) →
    cs = d ++ r ∧ ∀ c ∈ d, isNd c = true := by
  induction n with
  | zero =>
    intro cs d r h
    simp only [takeDigits, Prod.mk.injEq] at h
    obtain ⟨rfl, rfl⟩ := h
    simp
  | succ n ih =>
    intro cs d r h
    cases cs with
    | nil =>
      simp only [takeDigits, Prod.mk.injEq] at h
      obtain ⟨rfl, rfl⟩ := h
      simp
    | cons c cs =>
      simp only [takeDigits] at h
      split_ifs at h with hc
      · simp only [Prod.mk.injEq] at h
        obtain ⟨rfl, rfl⟩ := h
        obtain ⟨h1, h2⟩ := ih cs _ _ rfl
        constructor
        · simp only [List.cons_append]
          rw [← h1]
        · intro x hx
          rcases List.mem_cons.1 hx with rfl | hx
          · exact hc
          · exact h2 x hx
      · simp only [Prod.mk.injEq] at h
        obtain ⟨rfl, rfl⟩ := h
        simp

theorem takeDigits_append (d : List Char) : ∀ (n : Nat) (r : List Char),
    (∀ c ∈ d, isNd c = true) → d.length ≤ n → (∀ c ∈ r.head?, isNd c = false) →
    takeDigits n (d ++ r) = (d, r) := by
  induction d with
  | nil =>
    intro n r _ _ hr
    cases n with
    | zero => rfl
    | succ n =>
      cases r with
      | nil => rfl
      | cons c r =>
        have : isNd c = false := hr c (by simp)
        simp [takeDigits, this]
  | cons c d ih =>
    intro n r hd hn hr
    cases n with
    | zero => simp at hn
    | succ n =>
      have hc : isNd c = true := hd c (by simp)
      have := ih n r (fun x hx => hd x (List.mem_cons_of_mem _ hx)) (by simpa using hn) hr
      simp [takeDigits, hc, this]


theorem matchRangeHere_some (cs m : List Char) (h : matchRangeHere cs = some m) :
    ∃ e1 e2 rest, cs = rangeText e1 e2 ++ rest ∧ (∀ c ∈ e1, isNd c = true) ∧
      (∀ c ∈ e2, isNd c = true) ∧ atEndZ rest = true ∧ m = rangeText e1 e2 := by
  unfold matchRangeHere at h
  split at h
  · rename_i r1
    split at h
    · cases h
    · rename_i d1 r3 _ h1
      split at h
      · cases h
      · rename_i d2 r5 _ h2
        split_ifs at h with hend
        cases h
        obtain ⟨e1, f1⟩ := takeDigits_spec 10 _ _ _ h1
        obtain ⟨e2, f2⟩ := takeDigits_spec 10 _ _ _ h2
        refine ⟨d1, d2, r5, ?_, f1, f2, hend, rfl⟩
        rw [e1, e2]
        simp [rangeText]
      · cases h
    · cases h
  · cases h

theorem count_bracket_digits (e : List Char) (h : ∀ c ∈ e, isNd c = true) :
    e.count '[' = 0 := by
  rw [List.count_eq_zero]
  intro hmem
  exact (isNd_ne _ (h _ hmem)).1 rfl

theorem count_bracket_rangeText (e1 e2 : List Char) (h1 : ∀ c ∈ e1, isNd c = true)
    (h2 : ∀ c ∈ e2, isNd c = true) : (rangeText e1 e2).count '[' = 1 := by
  simp [rangeText, List.count_cons, List.count_append, count_bracket_digits e1 h1,
    count_bracket_digits e2 h2]

theorem count_bracket_atEndZ (rest : List Char) (h : atEndZ rest = true) : rest.count '[' = 0 := by
  match rest, h with
  | [], _ => rfl
  | [c], h =>
    simp only [atEndZ, beq_iff_eq] at h
    subst h
    decide

theorem matchRangeHere_rangeText (d1 d2 : List Char) (h1 : ∀ c ∈ d1, isNd c = true)
    (h2 : ∀ c ∈ d2, isNd c = true) (n1 : d1 ≠ []) (n2 : d2 ≠ []) (l1 : d1.length ≤ 10)
    (l2 : d2.length ≤ 10) : matchRangeHere (rangeText d1 d2) = some (rangeText d1 d2) := by
  have t1 : takeDigits 10 (d1 ++ '-' :: (d2 ++ [']'])) = (d1, '-' :: (d2 ++ [']'])) :=
    takeDigits_append d1 10 _ h1 l1 (by simp; decide)
  have t2 : takeDigits 10 (d2 ++ [']']) = (d2, [']']) :=
    takeDigits_append d2 10 _ h2 l2 (by simp; decide)
  unfold matchRangeHere rangeText
  simp only [t1]
  cases d1 with
  | nil => exact absurd rfl n1
  | cons a d1 =>
    simp only [t2]
    cases d2 with
    | nil => exact absurd rfl n2
    | cons b d2 => simp [atEndZ]

theorem findRange_rangeText (d1 d2 : List Char) (h1 : ∀ c ∈ d1, isNd c = true)
    (h2 : ∀ c ∈ d2, isNd c = true) (n1 : d1 ≠ []) (n2 : d2 ≠ []) (l1 : d1.length ≤ 10)
    (l2 : d2.length ≤ 10) (pre : List Char) :
    findRange (pre ++ rangeText d1 d2) = some (rangeText d1 d2) := by
  induction pre with
  | nil =>
    have := matchRangeHere_rangeText d1 d2 h1 h2 n1 n2 l1 l2
    simp only [List.nil_append]
    rw [show rangeText d1 d2 = '[' :: (d1 ++ '-' :: (d2 ++ [']'])) from rfl] at this ⊢
    simp only [findRange, this]
  | cons c pre ih =>
    simp only [List.cons_append, findRange]
    cases hm : matchRangeHere (c :: (pre ++ rangeText d1 d2)) with
    | none => exact ih
    | some m =>
      exfalso
      obtain ⟨e1, e2, rest, heq, f1, f2, hend, _⟩ := matchRangeHere_some _ _ hm
      have hc := congrArg (List.count '[') heq
      have hhead : c = '[' := by
        have := congrArg List.head? heq
        simpa [rangeText] using this
      subst hhead
      simp only [List.count_cons_self, List.count_append, count_bracket_rangeText e1 e2 f1 f2,
        count_bracket_rangeText d1 d2 h1 h2, count_bracket_atEndZ rest hend] at hc
      omega

theorem replaceAll_skip (old new : List Char) : ∀ (l : List Char) (k : Nat), l.length ≤ k →
    replaceAll old new k l = [] := by
  intro l
  induction l with
  | nil => intro k _; cases k <;> rfl
  | cons c cs ih =>
    intro k hk
    cases k with
    | zero => simp at hk
    | succ k =>
      simp only [replaceAll]
      exact ih k (by simpa using hk)

theorem replaceAll_last (old : List Char) (hold : old ≠ []) : ∀ pre : List Char,
    (∀ p, p < pre.length → old.isPrefixOf ((pre ++ old).drop p) = false) →
    replaceAll old [] 0 (pre ++ old) = pre := by
  intro pre
  induction pre with
  | nil =>
    intro _
    cases old with
    | nil => exact absurd rfl hold
    | cons c cs =>
      have hp : (c :: cs).isPrefixOf (c :: cs) = true := by simp
      simp only [List.nil_append, replaceAll, hp, if_true]
      exact replaceAll_skip _ _ cs _ (by simp)
  | cons c pre ih =>
    intro h
    have h0 : old.isPrefixOf (c :: (pre ++ old)) = false := by
      simpa using h 0 (by simp)
    have step : replaceAll old [] 0 (c :: (pre ++ old)) =
        c :: replaceAll old [] 0 (pre ++ old) := by
      simp [replaceAll, h0]
    rw [List.cons_append, step, ih]
    intro p hp
    have := h (p + 1) (by simpa using hp)
    simpa using this

theorem replaceAll_single (c : Char) : ∀ l : List Char,
    replaceAll [c] [] 0 l = l.filter (fun x => x != c) := by
  intro l
  induction l with
  | nil => rfl
  | cons x xs ih =>
    by_cases h : c = x
    · subst h
      simp [replaceAll, ih]
    · have h2 : ¬ x = c := fun e => h e.symm
      simp [replaceAll, ih, h, h2]

theorem splitAux_no_sep (sep : Char) : ∀ (l cur : List Char), sep ∉ l →
    splitAux sep cur l = [cur.reverse ++ l] := by
  intro l
  induction l with
  | nil => intro cur _; simp [splitAux]
  | cons c cs ih =>
    intro cur h
    have hc : ¬ c = sep := fun e => h (by simp [e])
    have hcs : sep ∉ cs := fun e => h (List.mem_cons_of_mem _ e)
    simp [splitAux, hc, ih (c :: cur) hcs]

theorem splitAux_sep (sep : Char) : ∀ (l1 l2 cur : List Char), sep ∉ l1 →
    splitAux sep cur (l1 ++ sep :: l2) = (cur.reverse ++ l1) :: splitAux sep [] l2 := by
  intro l1
  induction l1 with
  | nil => intro l2 cur _; simp [splitAux]
  | cons c cs ih =>
    intro l2 cur h
    have hc : ¬ c = sep := fun e => h (by simp [e])
    have hcs : sep ∉ cs := fun e => h (List.mem_cons_of_mem _ e)
    simp [splitAux, hc, ih l2 (c :: cur) hcs]

theorem filter_digits (e : List Char) (h : ∀ c ∈ e, isNd c = true) (x : Char)
    (hx : isNd x = false) : e.filter (fun c => c != x) = e := by
  rw [List.filter_eq_self]
  intro c hc
  have : c ≠ x := by
    intro e1
    subst e1
    rw [h c hc] at hx
    cases hx
  simpa using this

theorem parseDigits_ascii (d : List Char) (h : ∀ c ∈ d, isAsciiDigit c = true) :
    ∀ acc : Nat, parseDigits acc d = some (d.foldl (fun a c => a * 10 + (c.toNat - 48)) acc) := by
  induction d with
  | nil => intro acc; rfl
  | cons c cs ih =>
    intro acc
    have hc := h c (by simp)
    simp only [parseDigits, hc, if_true, List.foldl_cons]
    exact ih (fun x hx => h x (List.mem_cons_of_mem _ hx)) _

theorem parseInt_ascii (d : List Char) (h : ∀ c ∈ d, isAsciiDigit c = true) :
    parseInt d = decimalValue d := by
  cases d with
  | nil => rfl
  | cons c cs =>
    simp only [parseInt, parseDigits_ascii (c :: cs) h 0, Option.getD_some, decimalValue]

/-- The range text found at the end of a template, and the numbers read from it,
whatever precedes it. -/
theorem getURLOne_range (pre d1 d2 : List Char) (h1 : ∀ c ∈ d1, isNd c = true)
    (h2 : ∀ c ∈ d2, isNd c = true) (n1 : d1 ≠ []) (n2 : d2 ≠ []) (l1 : d1.length ≤ 10)
    (l2 : d2.length ≤ 10) :
    getURLOne ⟨pre ++ rangeText d1 d2⟩ =
      emitRange ⟨replaceAll (rangeText d1 d2) [] 0 (pre ++ rangeText d1 d2)⟩
        (parseInt d1) (parseInt d2) := by
  have hdash1 : '-' ∉ d1 := fun hm => (isNd_ne _ (h1 _ hm)).2.2.1 rfl
  have hdash2 : '-' ∉ d2 := fun hm => (isNd_ne _ (h2 _ hm)).2.2.1 rfl
  have hf : replaceAll [']'] [] 0 (replaceAll ['['] [] 0 (rangeText d1 d2)) = d1 ++ '-' :: d2 := by
    rw [replaceAll_single, replaceAll_single]
    simp [rangeText, List.filter_append, filter_digits d1 h1 '[' (by decide),
      filter_digits d2 h2 '[' (by decide), filter_digits d1 h1 ']' (by decide),
      filter_digits d2 h2 ']' (by decide)]
  unfold getURLOne
  simp only [findRange_rangeText d1 d2 h1 h2 n1 n2 l1 l2 pre, hf, splitDash,
    splitAux_sep '-' d1 d2 [] hdash1, splitAux_no_sep '-' d2 [] hdash2]
  simp

/-- A template in which the range text occurs only at its end expands to the text
before the range followed by each number from the first to the second, in
ascending order. -/
theorem getURLOne_range_once (pre d1 d2 : List Char) (h1 : ∀ c ∈ d1, isAsciiDigit c = true)
    (h2 : ∀ c ∈ d2, isAsciiDigit c = true) (n1 : d1 ≠ []) (n2 : d2 ≠ []) (l1 : d1.length ≤ 10)
    (l2 : d2.length ≤ 10)
    (hocc : ∀ p, p < pre.length →
      (rangeText d1 d2).isPrefixOf ((pre ++ rangeText d1 d2).drop p) = false) :
    getURLOne ⟨pre ++ rangeText d1 d2⟩ =
      (List.range' (decimalValue d1) (decimalValue d2 + 1 - decimalValue d1)).map
        (fun x => (⟨pre⟩ : String) ++ toString x) := by
  rw [getURLOne_range pre d1 d2 (fun c hc => isNd_of_ascii c (h1 c hc))
    (fun c hc => isNd_of_ascii c (h2 c hc)) n1 n2 l1 l2,
    replaceAll_last (rangeText d1 d2) (by simp [rangeText]) pre hocc,
    parseInt_ascii d1 h1, parseInt_ascii d2 h2]
  rfl

/-- The template `http://x/[1-3]` through `getURLOne_range_once`. -/
theorem getURLOne_range_once_example :
    getURLOne "http://x/[1-3]" = ["http://x/1", "http://x/2", "http://x/3"] :=
  (getURLOne_range_once "http://x/".data ['1'] ['3'] (by decide) (by decide) (by decide)
    (by decide) (by decide) (by decide) (by decide)).trans (by decide)

/-- A template in which the pattern finds nothing is sent as it is. -/
theorem getURLOne_plain (urlLink : String) (h : findRange urlLink.data = none) :
    getURLOne urlLink = [urlLink] := by
  unfold getURLOne
  rw [h]

/-- The sequence sent is the concatenation, in the order of the input, of what
each template gives. -/
theorem getURL_eq_flatMap (urls : List String) : getURL urls = urls.flatMap getURLOne := by
  induction urls with
  | nil => rfl
  | cons u us ih => simp [getURL, ih]

/-- The loop sends one URL for each number from `int1` to `int2`, and none when
`int2` is below `int1`. -/
theorem emitRange_length (val2 : String) (int1 int2 : Nat) :
    (emitRange val2 int1 int2).length = int2 + 1 - int1 := by
  simp [emitRange]

/-! ## The claims -/

/-- C1, the code at the failing input: the template `http://x/[1-2]a[1-2]` ends in
the range `[1-2]` with the text `http://x/[1-2]a` before it, and `getURL` sends
`http://x/a1` and `http://x/a2`: `strings.Replace` with a negative count removes
the range text wherever it occurs, so what is sent is not the text before the
range followed by 1 and by 2. -/
theorem getURL_removes_every_occurrence :
    getURL ["http://x/[1-2]a[1-2]"] = ["http://x/a1", "http://x/a2"] ∧
    getURL ["http://x/[1-2]a[1-2]"] ≠ ["http://x/[1-2]a1", "http://x/[1-2]a2"] := by
  constructor <;> decide

/-- The expansions the spec gives as examples: a range, a template without a
range, the range of one number. -/
theorem getURL_examples :
    getURL ["http://x/[1-3]", "http://y/"] =
      ["http://x/1", "http://x/2", "http://x/3", "http://y/"] ∧
    getURL ["http://x/[5-5]"] = ["http://x/5"] := by
  constructor <;> decide

/-- C2: in a job that completes over selectors with distinct ids, for a Text or
Image selector evaluated for the job whose evaluator returns the raw list `raw`,
the output map holds under the selector id the bare string when `raw` has one
element, the whole list when it has two or more, and no entry when it is empty. -/
theorem worker_collapse {Node URL : Type} (env : Env Node URL)
    (scrape : Scraping → String → World → Except Stop (GoMap × List String × World))
    (parent startURL : String) (doc : Node) (urls : List String) (w : World)
    (sels : List Selectors) (st : JobState) (selector : Selectors) (ps raw : List String)
    (hrun : workerSelectors env scrape parent startURL doc (JobState.mk [] urls w) sels = .ok st)
    (hmem : selector ∈ sels) (hid : (sels.map Selectors.ID).Nodup)
    (hp : selector.ParentSelectors = parent :: ps)
    (hk : (selector.Typ = "SelectorText" ∧ selectorText env doc selector = .ok raw) ∨
      (selector.Typ = "SelectorImage" ∧ selectorImage env doc selector = .ok raw)) :
    (∀ x, raw = [x] → mapGet st.linkOutput selector.ID = some (.str x)) ∧
    (2 ≤ raw.length → mapGet st.linkOutput selector.ID = some (.strs raw)) ∧
    (raw = [] → mapGet st.linkOutput selector.ID = none) := by
  rw [job_entry_collapsed env scrape parent startURL doc urls w sels st selector ps raw hrun hmem
    hid hp hk]
  refine ⟨?_, ?_, ?_⟩
  · intro x hx
    subst hx
    simp [storeCollapsed, mapGet_mapSet_self]
  · intro h2
    have h0 : raw.length ≠ 0 := by omega
    have h1 : raw.length ≠ 1 := by omega
    simp [storeCollapsed, h0, h1, mapGet_mapSet_self]
  · intro h0
    subst h0
    rfl

/-- C2 at scenario S1: the job of `http://x/` over the page with one `h1` reading
` Hello ` completes, the raw list of `title` is `[Hello]`, and the output map holds
the bare string `Hello` under `title`. -/
theorem worker_collapse_witness :
    workerSelectors docEnv (scraper docEnv 0) "_root" "http://x/" s1Page
        (JobState.mk [] ["http://x/"] world0) [titleSelector] =
      .ok (JobState.mk [("title", .str "Hello")] ["http://x/"] world0) ∧
    selectorText docEnv s1Page titleSelector = .ok ["Hello"] ∧
    mapGet (JobState.mk [("title", Value.str "Hello")] ["http://x/"] world0).linkOutput
      titleSelector.ID = some (.str "Hello") :=
  ⟨rfl, rfl,
    (worker_collapse docEnv (scraper docEnv 0) "_root" "http://x/" s1Page ["http://x/"] world0
      [titleSelector] (JobState.mk [("title", Value.str "Hello")] ["http://x/"] world0)
      titleSelector [] ["Hello"] rfl (List.mem_singleton.2 rfl) (by decide) rfl
      (Or.inl ⟨rfl, rfl⟩)).1 "Hello" rfl⟩

/-- C3, the code at the failing input: on a page with two tables, a Table selector
with `multiple` false returns the headings and the rows of both tables;
`selectorTable` walks the matches with `Each` and never reads `Multiple`. -/
theorem selectorTable_ignores_multiple :
    tableSelector.Multiple = false ∧
    (Html.find twoTablesPage tableSelector.Selector).length = 2 ∧
    selectorTable docEnv twoTablesPage tableSelector =
      [("header", .strs ["h1", "h2"]), ("rows", .rows [["a"], ["b"]])] :=
  ⟨rfl, rfl, rfl⟩

/-- The Link branch of the worker against the sitemap `readSiteMap` decodes: for
a Link selector evaluated for a job that does not list its own id among its
parents, with `links` the discovered links and `base` the sitemap file as
`readSiteMap` decodes it (every selector of it having a parent): when no
selector of `base` has this selector's id as first parent the turn of the loop
records the flat list `links` under the selector id; when one has, it records the
map returned by `scraper` on the derived sitemap (id of the selector, start URLs
`links`, selectors of `base`) with the selector id as parent, and the job stops if
that evaluation stops. -/
theorem worker_link_dispatch {Node URL : Type} (env : Env Node URL) (fuel : Nat)
    (parent startURL : String) (doc : Node) (st : JobState) (selector : Selectors)
    (ps links : List String) (base : Scraping)
    (hp : selector.ParentSelectors = parent :: ps) (ht : selector.Typ = "SelectorLink")
    (hself : selector.ID ∉ selector.ParentSelectors)
    (hl : selectorLink env doc selector startURL = .ok links)
    (hbase : env.siteMapFile = some base)
    (hpar : ∀ c ∈ base.Selectors, c.ParentSelectors ≠ []) :
    ((∀ c ∈ base.Selectors, c.ParentSelectors.head? ≠ some selector.ID) →
      workerSelector env (scraper env fuel) parent startURL doc st selector =
        .ok (JobState.mk (mapSet st.linkOutput selector.ID (.strs links)) st.StartURL st.world)) ∧
    ((∃ c ∈ base.Selectors, c.ParentSelectors.head? = some selector.ID) →
      workerSelector env (scraper env fuel) parent startURL doc st selector =
        match scraper env fuel (Scraping.mk selector.ID links base.Selectors) selector.ID
            st.world with
        | .error e => .error e
        | .ok (result, _, world1) =>
          .ok (JobState.mk (mapSet st.linkOutput selector.ID (.map result)) st.StartURL world1)) := by
  have hne : HasElem selector.ParentSelectors selector.ID = false := by
    cases hh : HasElem selector.ParentSelectors selector.ID with
    | false => rfl
    | true => exact absurd ((HasElem_iff _ _).1 hh) hself
  have hne2 : HasElem (parent :: ps) selector.ID = false := hp ▸ hne
  have hchild : getChildSelector env selector =
      .ok (base.Selectors.countP (fun c => c.ParentSelectors.head? == some selector.ID) == 0) := by
    unfold getChildSelector readSiteMap
    simp only [hbase, countChildren_eq selector base.Selectors hpar 0, Nat.zero_add]
  have hmap : getSiteMap env links selector =
      .ok (Scraping.mk selector.ID links base.Selectors) := by
    unfold getSiteMap readSiteMap
    simp only [hbase]
  constructor
  · intro hno
    have hzero : base.Selectors.countP (fun c => c.ParentSelectors.head? == some selector.ID)
        = 0 := by
      rw [List.countP_eq_zero]
      intro c hc
      simpa using hno c hc
    unfold workerSelector
    simp [hp, ht, hl, hne2, hchild, hzero]
  · intro hsome
    have hpos : base.Selectors.countP (fun c => c.ParentSelectors.head? == some selector.ID)
        ≠ 0 := by
      intro h0
      rw [List.countP_eq_zero] at h0
      obtain ⟨c, hc, hhead⟩ := hsome
      exact h0 c hc (by simp [hhead])
    have hfalse : (base.Selectors.countP
        (fun c => c.ParentSelectors.head? == some selector.ID) == 0) = false := by
      simpa using hpos
    unfold workerSelector
    simp only [hp, ht, hl, hne2, hchild, hfalse, hmap]
    simp

/-- Scenario S2 when `readSiteMap` decodes the sitemap the job runs on: `link` has
the child `body`, and its turn of the loop on the start page records the map of
the nested evaluation over `/p1` and `/p2`. -/
theorem worker_link_dispatch_witness :
    workerSelector s2Env (scraper s2Env 1) "_root" "http://x/" s2StartPage
        (JobState.mk [] ["http://x/"] world0) linkSelector =
      .ok (JobState.mk
        [("link", .map [("http://x/p1", .map [("body", .str "A")]),
                        ("http://x/p2", .map [("body", .str "B")])])]
        ["http://x/"] (World.mk ["http://x/p1", "http://x/p2"] (.document []))) :=
  ((worker_link_dispatch s2Env 1 "_root" "http://x/" s2StartPage
    (JobState.mk [] ["http://x/"] world0) linkSelector [] ["http://x/p1", "http://x/p2"]
    s2SiteMap rfl rfl (by decide) rfl rfl (by decide)).2
      ⟨bodySelector, by decide, rfl⟩).trans (by rfl)

/-- C5: for a Link selector evaluated for a job that lists its own id among its
parents, with `links` the discovered links, the turn of the loop leaves the
output map and the world alone and makes `StartURL` its former value followed by
`added`, where every discovered link is in the new `StartURL`, the entries of
`added` are pairwise distinct and none of them was in the former `StartURL`; a
duplicate-free `StartURL` stays duplicate-free. -/
theorem worker_self_link_append {Node URL : Type} (env : Env Node URL)
    (scrape : Scraping → String → World → Except Stop (GoMap × List String × World))
    (parent startURL : String) (doc : Node) (st : JobState) (selector : Selectors)
    (ps links : List String)
    (hp : selector.ParentSelectors = parent :: ps) (ht : selector.Typ = "SelectorLink")
    (hself : selector.ID ∈ selector.ParentSelectors)
    (hl : selectorLink env doc selector startURL = .ok links) :
    ∃ added : List String,
      workerSelector env scrape parent startURL doc st selector =
        .ok (JobState.mk st.linkOutput (st.StartURL ++ added) st.world) ∧
      (∀ l ∈ links, l ∈ st.StartURL ++ added) ∧
      added.Nodup ∧ (∀ a ∈ added, a ∉ st.StartURL) ∧
      (st.StartURL.Nodup → (st.StartURL ++ added).Nodup) := by
  obtain ⟨added, h1, h2, h3, h4⟩ := appendLinks_spec links st.StartURL
  have hhas : HasElem (parent :: ps) selector.ID = true := hp ▸ (HasElem_iff _ _).2 hself
  refine ⟨added, ?_, h4, h2, h3, ?_⟩
  · unfold workerSelector
    simp [hp, ht, hl, hhas, h1]
  · intro hnd
    rw [List.nodup_append]
    refine ⟨hnd, h2, ?_⟩
    intro a ha hb
    exact h3 a hb ha

/-- C5 at scenario S4: on page 1 the selector `next` appends `http://x/2` to the
start URLs. -/
theorem worker_self_link_append_witness :
    ∃ added : List String,
      workerSelector s4Env (scraper s4Env 0) "_root" "http://x/1" s4StartPage
          (JobState.mk [] ["http://x/1"] world0) nextSelector =
        .ok (JobState.mk [] (["http://x/1"] ++ added) world0) ∧
      (∀ l ∈ ["http://x/2"], l ∈ ["http://x/1"] ++ added) ∧
      added.Nodup ∧ (∀ a ∈ added, a ∉ ["http://x/1"]) ∧
      ((["http://x/1"] : List String).Nodup → (["http://x/1"] ++ added).Nodup) :=
  worker_self_link_append s4Env (scraper s4Env 0) "_root" "http://x/1" s4StartPage
    (JobState.mk [] ["http://x/1"] world0) nextSelector ["next"] ["http://x/2"] rfl rfl
    (by decide) rfl

/-- C6, the code at the failing input: in scenario S4 the `scraper` of
`backend.go`, with one worker or more and whatever fuel, fetches page 1 and
nothing else.  The worker appends `http://x/2` to `StartURL`, but the producer
ranges over the slice it read before the first job, so pages 2 and 3 are never
requested. -/
theorem scraper_self_pagination_fetches_start_only :
    s4Pages.map Prod.fst = ["http://x/1", "http://x/2", "http://x/3"] ∧
    ∀ workers fuel : Nat,
      scraper (pageEnv s4Pages (some s4SiteMap) (workers + 1) "json") (fuel + 1) s4SiteMap
          "_root" world0 =
        .ok ([], ["http://x/1", "http://x/2"], World.mk ["http://x/1"] (.document [])) := by
  refine ⟨rfl, ?_⟩
  intro workers fuel
  rfl

/-- C7 refuted: with the pattern `a ` on a paragraph reading `a b` the match is
`a ` and the value is `a`, the match trimmed; on a paragraph of two blanks the
pattern does not match and the value is the empty string. -/
theorem selectorText_blank_counterexample :
    (docEnv.regexCompile regexSelector.Regex).map (fun re => (re "a b", re "  ")) =
      some (some "a ", none) ∧
    (Html.find paragraphsPage regexSelector.Selector).map Html.innerText = ["a b", "  "] ∧
    selectorText docEnv paragraphsPage regexSelector = .ok ["a", ""] :=
  ⟨rfl, rfl, rfl⟩

/-- C7 amended: `selectorText` returns, for the matches it processes in order,
the trimmed node text when the regex is unset; when the regex is set and
compiles, the trimmed match where the pattern matches the node text and the
trimmed node text where it does not.  A trimmed text is empty exactly when every
character of the text is white space. -/
theorem selectorText_values {Node URL : Type} (env : Env Node URL) (doc : Node)
    (selector : Selectors) :
    (selector.Regex = "" →
      selectorText env doc selector =
        .ok ((processed selector.Multiple (env.find doc selector.Selector)).map
          (fun s => trimSpace (env.text s)))) ∧
    (∀ re : String → Option String, selector.Regex ≠ "" →
      env.regexCompile selector.Regex = some re →
      selectorText env doc selector =
        .ok ((processed selector.Multiple (env.find doc selector.Selector)).map
          (fun s => trimSpace ((re (env.text s)).getD (env.text s))))) ∧
    (∀ t : String, trimSpace t = "" ↔ ∀ c ∈ t.data, isSpace c = true) := by
  refine ⟨?_, ?_, trimSpace_eq_empty⟩
  · intro h
    apply selectorText_eq
    intro s _
    simp [textOf, h]
  · intro re h hre
    apply selectorText_eq
    intro s _
    cases hm : re (env.text s) <;> simp [textOf, h, hre, hm]

/-- C7 amended, at the page of two paragraphs with the pattern `a `. -/
theorem selectorText_values_witness :
    selectorText docEnv paragraphsPage regexSelector =
      .ok ((processed regexSelector.Multiple
          (docEnv.find paragraphsPage regexSelector.Selector)).map
        (fun s => trimSpace ((literalFind "a " (docEnv.text s)).getD (docEnv.text s)))) :=
  (selectorText_values docEnv paragraphsPage regexSelector).2.1 (literalFind "a ")
    (by decide) rfl

/-- C8 refuted: the page has two `tr`, one in a table inside the cell of the
other, and `rows` has three entries: the inner row is listed once for each of the
two matched tables, and the outer row lists the inner cell too. -/
theorem selectorTable_nested_counterexample :
    (Html.find nestedTablePage "tr").length = 2 ∧
    selectorTable docEnv nestedTablePage tableSelector =
      [("header", .strs []), ("rows", .rows [["xy", "y"], ["y"], ["y"]])] :=
  ⟨rfl, rfl⟩

/-- C8 amended: the result of `selectorTable` is the map with exactly the keys
`header` and `rows`, where, going through the matched tables in document order
and through the `tr` found below each in document order, `header` lists the texts
of the `th` found below that `tr` and `rows` lists one entry for the `tr` when
`td` are found below it, the texts of those `td`; a `tr` below two matched tables
is gone through once for each.  For the table of S5 the result is
`header: [h1, h2]`, `rows: [[a, b], [c, d], [e, f]]`. -/
theorem selectorTable_result {Node URL : Type} (env : Env Node URL) (doc : Node)
    (selector : Selectors) :
    selectorTable env doc selector =
      [("header", .strs (tableHeaderSpec env (env.find doc selector.Selector))),
       ("rows", .rows (tableRowsSpec env (env.find doc selector.Selector)))] ∧
    selectorTable docEnv s5Page tableSelector =
      [("header", .strs ["h1", "h2"]), ("rows", .rows [["a", "b"], ["c", "d"], ["e", "f"]])] := by
  constructor
  · unfold selectorTable
    rw [tableData_eq]
    simp [mapSet]
  · rfl

/-- C9 refuted: on the page at `http://x/` whose first anchor has no `href`, the
Link selector gives `http://x/` for that anchor, not the empty string. -/
theorem selectorLink_missing_href_counterexample :
    (Html.find anchorsPage linkSelector.Selector).map (fun a => Html.attr a "href") =
      [none, some "/p2"] ∧
    selectorLink docEnv anchorsPage linkSelector "http://x/" =
      .ok ["http://x/", "http://x/p2"] :=
  ⟨rfl, rfl⟩

/-- C9 amended: the Image and ElementAttribute evaluators return one value for
every match they process, in order, the attribute (`src`, or the one named by
`ExtractAttribute`) or the empty string when the match lacks it.  The Link
evaluator, when every processed `href` resolves (to the value `v` gives), returns
one value for every match it processes, and for a match without `href` that value
is `toFixedURL("", baseURL)`, the empty reference resolved against the page URL. -/
theorem missing_attribute_values {Node URL : Type} (env : Env Node URL) (doc : Node)
    (selector : Selectors) (baseURL : String) :
    selectorImage env doc selector =
      .ok ((processed selector.Multiple (env.find doc selector.Selector)).map
        (fun s => (env.attr s "src").getD "")) ∧
    selectorElementAttribute env doc selector =
      .ok ((processed selector.Multiple (env.find doc selector.Selector)).map
        (fun s => (env.attr s selector.ExtractAttribute).getD "")) ∧
    (∀ v : Node → String,
      (∀ s ∈ processed selector.Multiple (env.find doc selector.Selector),
        toFixedURL env ((env.attr s "href").getD "") baseURL = .ok (v s)) →
      selectorLink env doc selector baseURL =
        .ok ((processed selector.Multiple (env.find doc selector.Selector)).map v) ∧
      (∀ s ∈ processed selector.Multiple (env.find doc selector.Selector),
        env.attr s "href" = none → toFixedURL env "" baseURL = .ok (v s))) := by
  refine ⟨selectorImage_eq env doc selector, selectorElementAttribute_eq env doc selector, ?_⟩
  intro v h
  refine ⟨selectorLink_eq env doc selector baseURL v h, ?_⟩
  intro s hs hnone
  have := h s hs
  rwa [hnone] at this

/-- C9 amended, at the page with an anchor without `href` and an anchor to `/p2`:
the Link evaluator returns one value for each, the first being the page URL. -/
theorem missing_attribute_values_witness :
    selectorLink docEnv anchorsPage linkSelector "http://x/" =
      .ok ((processed linkSelector.Multiple
          (docEnv.find anchorsPage linkSelector.Selector)).map
        (fun s => resolveSimple "http://x/" ((Html.attr s "href").getD ""))) ∧
    (processed linkSelector.Multiple (docEnv.find anchorsPage linkSelector.Selector)).map
        (fun s => resolveSimple "http://x/" ((Html.attr s "href").getD "")) =
      ["http://x/", "http://x/p2"] :=
  ⟨((missing_attribute_values docEnv anchorsPage linkSelector "http://x/").2.2
      (fun s => resolveSimple "http://x/" ((Html.attr s "href").getD ""))
      (fun _ _ => rfl)).1, rfl⟩

/-- C10 refuted: the job of `http://x/` over a page where no selector of the
sitemap matches has entries under `attr`, `item`, `t` and `link`, holding the empty
list, the empty list of maps, the table of no headings and no rows, and the empty
list of links; only `title` and `img` have none. -/
theorem worker_empty_results_counterexample :
    allKindsSiteMap.Selectors.map (fun s => (Html.find emptyPage s.Selector).length) =
      [0, 0, 0, 0, 0, 0] ∧
    workerSelectors emptyEnv (scraper emptyEnv 0) "_root" "http://x/" emptyPage
        (JobState.mk [] ["http://x/"] world0) allKindsSiteMap.Selectors =
      .ok (JobState.mk
        [("attr", .strs []), ("item", .list []),
         ("t", .map [("header", .strs []), ("rows", .rows [])]), ("link", .strs [])]
        ["http://x/"] world0) :=
  ⟨rfl, rfl⟩

/-- C10 amended: in a job that completes over selectors with distinct ids, for a
selector evaluated for the job whose query matches nothing in the document, the
output map has no entry under the selector id when the selector is Text or Image;
it has the entry of the empty list when it is ElementAttribute, of the empty list
of maps when it is Element, of the map with empty `header` and `rows` when it is
Table, and of the empty list of links when it is a Link that does not list its
own id among its parents and has no child in the sitemap file. -/
theorem worker_empty_results {Node URL : Type} (env : Env Node URL)
    (scrape : Scraping → String → World → Except Stop (GoMap × List String × World))
    (parent startURL : String) (doc : Node) (urls : List String) (w : World)
    (sels : List Selectors) (st : JobState) (selector : Selectors) (ps : List String)
    (hrun : workerSelectors env scrape parent startURL doc (JobState.mk [] urls w) sels = .ok st)
    (hmem : selector ∈ sels) (hid : (sels.map Selectors.ID).Nodup)
    (hp : selector.ParentSelectors = parent :: ps)
    (hempty : env.find doc selector.Selector = []) :
    ((selector.Typ = "SelectorText" ∨ selector.Typ = "SelectorImage") →
      mapGet st.linkOutput selector.ID = none) ∧
    (selector.Typ = "SelectorElementAttribute" →
      mapGet st.linkOutput selector.ID = some (.strs [])) ∧
    (selector.Typ = "SelectorElement" →
      mapGet st.linkOutput selector.ID = some (.list [])) ∧
    (selector.Typ = "SelectorTable" →
      mapGet st.linkOutput selector.ID =
        some (.map [("header", .strs []), ("rows", .rows [])])) ∧
    (selector.Typ = "SelectorLink" → selector.ID ∉ selector.ParentSelectors →
      getChildSelector env selector = .ok true →
      mapGet st.linkOutput selector.ID = some (.strs [])) := by
  have htext : selectorText env doc selector = .ok [] := by
    unfold selectorText
    rw [hempty]
    rfl
  have himage : selectorImage env doc selector = .ok [] := by
    unfold selectorImage
    rw [hempty]
    rfl
  refine ⟨?_, ?_, ?_, ?_, ?_⟩
  · intro ht
    have hk : (selector.Typ = "SelectorText" ∧ selectorText env doc selector = .ok []) ∨
        (selector.Typ = "SelectorImage" ∧ selectorImage env doc selector = .ok []) := by
      rcases ht with ht | ht
      · exact Or.inl ⟨ht, htext⟩
      · exact Or.inr ⟨ht, himage⟩
    rw [job_entry_collapsed env scrape parent startURL doc urls w sels st selector ps [] hrun
      hmem hid hp hk]
    rfl
  · intro ht
    apply job_entry_of_step env scrape parent startURL doc _ sels st selector _ hrun hmem hid
    intro sa sb h
    unfold workerSelector at h
    simp [hp, ht, selectorElementAttribute, hempty, eachWithBreak] at h
    rw [← h]
  · intro ht
    apply job_entry_of_step env scrape parent startURL doc _ sels st selector _ hrun hmem hid
    intro sa sb h
    unfold workerSelector at h
    simp only [hp, ht, selectorElement, hempty] at h
    cases hs : readSiteMap env with
    | error e => simp [hs] at h
    | ok base =>
      simp [hs, eachWithBreak] at h
      rw [← h]
  · intro ht
    apply job_entry_of_step env scrape parent startURL doc _ sels st selector _ hrun hmem hid
    intro sa sb h
    unfold workerSelector at h
    simp [hp, ht, selectorTable, tableData, hempty, mapSet] at h
    rw [← h]
  · intro ht hself hchild
    have hne : HasElem (parent :: ps) selector.ID = false := by
      cases hh : HasElem (parent :: ps) selector.ID with
      | false => rfl
      | true => exact absurd (hp ▸ (HasElem_iff _ _).1 hh) hself
    apply job_entry_of_step env scrape parent startURL doc _ sels st selector _ hrun hmem hid
    intro sa sb h
    unfold workerSelector at h
    simp [hp, ht, selectorLink, hempty, eachWithBreak, hne, hchild] at h
    rw [← h]

/-- C10 amended, at the job over the empty page: the query of the
ElementAttribute selector `attr` matches nothing and the output map has the entry
of the empty list under `attr`. -/
theorem worker_empty_results_witness :
    emptyEnv.find emptyPage attributeSelector.Selector = [] ∧
    mapGet (JobState.mk
        [("attr", .strs []), ("item", .list []),
         ("t", .map [("header", .strs []), ("rows", .rows [])]), ("link", .strs [])]
        ["http://x/"] world0).linkOutput attributeSelector.ID = some (.strs []) :=
  ⟨rfl,
    (worker_empty_results emptyEnv (scraper emptyEnv 0) "_root" "http://x/" emptyPage
      ["http://x/"] world0 allKindsSiteMap.Selectors _ attributeSelector [] rfl (by decide)
      (by decide) rfl rfl).2.1 rfl⟩

/-! ## The evaluators that stop at the first match -/

/-- With `multiple` false the Text, Link, Image, ElementAttribute and Element
evaluators return at most one value. -/
theorem evaluators_single_value {Node URL : Type} (env : Env Node URL) (doc : Node)
    (selector : Selectors) (baseURL : String) (hm : selector.Multiple = false) :
    (∀ r, selectorText env doc selector = .ok r → r.length ≤ 1) ∧
    (∀ r, selectorLink env doc selector baseURL = .ok r → r.length ≤ 1) ∧
    (∀ r, selectorImage env doc selector = .ok r → r.length ≤ 1) ∧
    (∀ r, selectorElementAttribute env doc selector = .ok r → r.length ≤ 1) ∧
    (∀ r, selectorElement env doc selector = .ok r → r.length ≤ 1) := by
  refine ⟨?_, ?_, ?_, ?_, ?_⟩
  · intro r h
    unfold selectorText at h
    refine eachWithBreak_single _ ?_ _ [] r h
    intro s a x b hx
    split at hx
    · cases hx
    · cases hx
      simp [hm]
  · intro r h
    unfold selectorLink at h
    refine eachWithBreak_single _ ?_ _ [] r h
    intro s a x b hx
    split at hx
    · cases hx
    · cases hx
      simp [hm]
  · intro r h
    rw [selectorImage_eq, hm] at h
    cases h
    simpa using processed_length_le_one (env.find doc selector.Selector)
  · intro r h
    rw [selectorElementAttribute_eq, hm] at h
    cases h
    simpa using processed_length_le_one (env.find doc selector.Selector)
  · intro r h
    unfold selectorElement at h
    split at h
    · cases h
    · refine eachWithBreak_single _ ?_ _ [] r h
      intro s a x b hx
      split at hx
      · cases hx
      · split at hx <;> cases hx <;> simp [hm]

/-! ## The claims on the sink, the parent scope, the Element evaluator and
descending ranges -/

/-- C14: a template made of any text followed by `[`, one to ten ASCII digits
denoting N, `-`, one to ten ASCII digits denoting M, and `]`, with M below N,
gives no URL, and in a list the expansions of the templates before and after it
follow one another unchanged. -/
theorem getURL_descending_range (before after : List String) (pre d1 d2 : List Char)
    (h1 : ∀ c ∈ d1, isAsciiDigit c = true) (h2 : ∀ c ∈ d2, isAsciiDigit c = true)
    (n1 : d1 ≠ []) (n2 : d2 ≠ []) (l1 : d1.length ≤ 10) (l2 : d2.length ≤ 10)
    (hlt : decimalValue d2 < decimalValue d1) :
    getURLOne ⟨pre ++ rangeText d1 d2⟩ = [] ∧
    getURL (before ++ ⟨pre ++ rangeText d1 d2⟩ :: after) = getURL before ++ getURL after := by
  have hone : getURLOne ⟨pre ++ rangeText d1 d2⟩ = [] := by
    rw [getURLOne_range pre d1 d2 (fun c hc => isNd_of_ascii c (h1 c hc))
      (fun c hc => isNd_of_ascii c (h2 c hc)) n1 n2 l1 l2, parseInt_ascii d1 h1,
      parseInt_ascii d2 h2]
    have hz : decimalValue d2 + 1 - decimalValue d1 = 0 := by omega
    simp [emitRange, hz]
  refine ⟨hone, ?_⟩
  simp [getURL_eq_flatMap, hone]

/-- C14 at the list of `http://a/[1-2]`, `http://x/[3-1]` and `http://b/`: the
descending range gives nothing and the two other templates give their URLs. -/
theorem getURL_descending_range_witness :
    getURL ["http://a/[1-2]", "http://x/[3-1]", "http://b/"] =
      ["http://a/1", "http://a/2", "http://b/"] :=
  (getURL_descending_range ["http://a/[1-2]"] ["http://b/"] "http://x/".data ['3'] ['1']
    (by decide) (by decide) (by decide) (by decide) (by decide) (by decide) (by decide)).2.trans
    (by decide)

/-- With no selector every job sends an empty `linkOutput`, which the sink skips:
the jobs only add their URLs to the log of fetches. -/
theorem scraperJobs_no_selectors {Node URL : Type} (env : Env Node URL)
    (scrape : Scraping → String → World → Except Stop (GoMap × List String × World))
    (parent : String) (jobs : List String) :
    ∀ (pageOutput : GoMap) (urls : List String) (w : World),
      (∀ u ∈ jobs, fetchDoc env u ≠ none) →
      scraperJobs env scrape parent [] jobs (pageOutput, urls, w) =
        .ok (pageOutput, urls, World.mk (w.fetched ++ jobs) w.outputFile) := by
  induction jobs with
  | nil =>
    intro pageOutput urls w _
    cases w
    simp [scraperJobs]
  | cons u rest ih =>
    intro pageOutput urls w h
    have hrest : ∀ x ∈ rest, fetchDoc env x ≠ none :=
      fun x hx => h x (List.mem_cons_of_mem _ hx)
    cases hf : fetchDoc env u with
    | none => exact absurd hf (h u (List.mem_cons_self _ _))
    | some d =>
      cases d with
      | none => simp [scraperJobs, worker, hf, ih _ _ _ hrest]
      | some doc => simp [scraperJobs, worker, hf, workerSelectors, ih _ _ _ hrest]

/-- C11 refuted: with no selector and the start URL `http://x/` fetched, the
output document is still `{}` after the run with parent `_root`, and the map
returned with the parent `link` is empty: neither has the key `http://x/`. -/
theorem scraper_empty_selectors_counterexample :
    noSelectorSiteMap.Selectors = [] ∧
    scraper noSelectorEnv 1 noSelectorSiteMap "_root" world0 =
      .ok ([], ["http://x/"], World.mk ["http://x/"] (.document [])) ∧
    scraper noSelectorEnv 1 noSelectorSiteMap "link" world0 =
      .ok ([], ["http://x/"], World.mk ["http://x/"] (.document [])) :=
  ⟨rfl, rfl, rfl⟩

/-- C11 amended: for a sitemap with no selector, when no fetch of a start URL
ends the process, `scraper` returns the empty map and leaves the output file as
it was, under `_root` and under any other parent: the sink records nothing for
the start URLs, which are only fetched (by the worker, when there is one). -/
theorem scraper_empty_selectors {Node URL : Type} (env : Env Node URL) (fuel : Nat)
    (siteMap : Scraping) (parent : String) (w : World)
    (hsel : siteMap.Selectors = [])
    (hfetch : ∀ u ∈ (getURL siteMap.StartURL).filter (validURL env), fetchDoc env u ≠ none) :
    scraper env (fuel + 1) siteMap parent w =
      .ok ([], siteMap.StartURL,
        World.mk
          (if env.Workers = 0 then w.fetched
            else w.fetched ++ (getURL siteMap.StartURL).filter (validURL env))
          w.outputFile) := by
  simp only [scraper, scraperBody, hsel]
  by_cases hw : env.Workers = 0
  · cases w
    simp [hw]
  · simp only [hw, if_false]
    exact scraperJobs_no_selectors env _ parent _ [] siteMap.StartURL w hfetch

/-- C11 amended, at the sitemap with the start URL `http://x/` and no selector. -/
theorem scraper_empty_selectors_witness :
    scraper noSelectorEnv 1 noSelectorSiteMap "_root" world0 =
      .ok ([], ["http://x/"], World.mk ["http://x/"] (.document [])) :=
  (scraper_empty_selectors noSelectorEnv 0 noSelectorSiteMap "_root" world0 rfl
    (by
      intro u hu
      have hu2 : u ∈ ["http://x/"] := hu
      rw [List.mem_singleton] at hu2
      subst hu2
      show (some (some s1Page) : Option (Option Html)) ≠ none
      exact Option.some_ne_none _)).trans (by rfl)

/-- C12 refuted: the Text selector `heading` lists the parents `_root` and `link`
and matches the page; the job with parent `_root` records it, the job with parent
`link` on the same page records nothing. -/
theorem worker_second_parent_counterexample :
    sharedSelector.ParentSelectors = ["_root", "link"] ∧
    selectorText docEnv s1Page sharedSelector = .ok ["Hello"] ∧
    workerSelectors docEnv (scraper docEnv 0) "_root" "http://x/" s1Page
        (JobState.mk [] ["http://x/"] world0) [sharedSelector] =
      .ok (JobState.mk [("heading", .str "Hello")] ["http://x/"] world0) ∧
    workerSelectors docEnv (scraper docEnv 0) "link" "http://x/" s1Page
        (JobState.mk [] ["http://x/"] world0) [sharedSelector] =
      .ok (JobState.mk [] ["http://x/"] world0) :=
  ⟨rfl, rfl, rfl, rfl⟩

/-- C12 amended: a selector with the parents `p :: ps` takes part in the scope of
`p` alone.  For a job with another parent, one of `ps` included, the turn of the
loop for the selector returns the state as it was, whatever the evaluator would
do, and in a job that completes over selectors with distinct ids the output map
has no entry under the selector id.  For a job with the parent `p` the turn of
the loop runs the evaluator of the kind of the selector on the document of the
job, whatever `ps` is: it stops when the evaluator stops and otherwise stores the
result of a Text or Image selector by the collapse rule, assigns the result of an
ElementAttribute, Element or Table selector under the selector id, and sends the
links of a Link selector to the append loop, to the flat list or to the nested
evaluation; in a job that completes over selectors with distinct ids the output
map holds that entry. -/
theorem worker_first_parent_scope {Node URL : Type} (env : Env Node URL)
    (scrape : Scraping → String → World → Except Stop (GoMap × List String × World))
    (parent startURL : String) (doc : Node) (urls : List String) (w : World)
    (sels : List Selectors) (st : JobState) (selector : Selectors) (p : String)
    (ps : List String)
    (hrun : workerSelectors env scrape parent startURL doc (JobState.mk [] urls w) sels = .ok st)
    (hmem : selector ∈ sels) (hid : (sels.map Selectors.ID).Nodup)
    (hp : selector.ParentSelectors = p :: ps) :
    (parent ≠ p →
      (∀ sa : JobState, workerSelector env scrape parent startURL doc sa selector = .ok sa) ∧
      mapGet st.linkOutput selector.ID = none) ∧
    (parent = p →
      (selector.Typ = "SelectorText" →
        (∀ sa : JobState, workerSelector env scrape parent startURL doc sa selector =
          match selectorText env doc selector with
          | .error e => .error e
          | .ok raw =>
            .ok (JobState.mk (storeCollapsed sa.linkOutput selector.ID raw) sa.StartURL
              sa.world)) ∧
        (∀ raw, selectorText env doc selector = .ok raw →
          mapGet st.linkOutput selector.ID =
            mapGet (storeCollapsed [] selector.ID raw) selector.ID)) ∧
      (selector.Typ = "SelectorImage" →
        (∀ sa : JobState, workerSelector env scrape parent startURL doc sa selector =
          match selectorImage env doc selector with
          | .error e => .error e
          | .ok raw =>
            .ok (JobState.mk (storeCollapsed sa.linkOutput selector.ID raw) sa.StartURL
              sa.world)) ∧
        (∀ raw, selectorImage env doc selector = .ok raw →
          mapGet st.linkOutput selector.ID =
            mapGet (storeCollapsed [] selector.ID raw) selector.ID)) ∧
      (selector.Typ = "SelectorElementAttribute" →
        (∀ sa : JobState, workerSelector env scrape parent startURL doc sa selector =
          match selectorElementAttribute env doc selector with
          | .error e => .error e
          | .ok r =>
            .ok (JobState.mk (mapSet sa.linkOutput selector.ID (.strs r)) sa.StartURL
              sa.world)) ∧
        (∀ r, selectorElementAttribute env doc selector = .ok r →
          mapGet st.linkOutput selector.ID = some (.strs r))) ∧
      (selector.Typ = "SelectorElement" →
        (∀ sa : JobState, workerSelector env scrape parent startURL doc sa selector =
          match selectorElement env doc selector with
          | .error e => .error e
          | .ok r =>
            .ok (JobState.mk (mapSet sa.linkOutput selector.ID (.list (r.map Value.map)))
              sa.StartURL sa.world)) ∧
        (∀ r, selectorElement env doc selector = .ok r →
          mapGet st.linkOutput selector.ID = some (.list (r.map Value.map)))) ∧
      (selector.Typ = "SelectorTable" →
        (∀ sa : JobState, workerSelector env scrape parent startURL doc sa selector =
          .ok (JobState.mk
            (mapSet sa.linkOutput selector.ID (.map (selectorTable env doc selector)))
            sa.StartURL sa.world)) ∧
        mapGet st.linkOutput selector.ID = some (.map (selectorTable env doc selector))) ∧
      (selector.Typ = "SelectorLink" →
        (∀ e, selectorLink env doc selector startURL = .error e →
          ∀ sa : JobState,
            workerSelector env scrape parent startURL doc sa selector = .error e) ∧
        (∀ links, selectorLink env doc selector startURL = .ok links →
          (selector.ID ∈ selector.ParentSelectors →
            ∀ sa : JobState, workerSelector env scrape parent startURL doc sa selector =
              .ok (JobState.mk sa.linkOutput (appendLinks sa.StartURL links) sa.world)) ∧
          (selector.ID ∉ selector.ParentSelectors →
            getChildSelector env selector = .ok true →
            (∀ sa : JobState, workerSelector env scrape parent startURL doc sa selector =
              .ok (JobState.mk (mapSet sa.linkOutput selector.ID (.strs links)) sa.StartURL
                sa.world)) ∧
            mapGet st.linkOutput selector.ID = some (.strs links)) ∧
          (selector.ID ∉ selector.ParentSelectors →
            getChildSelector env selector = .ok false →
            ∀ newSiteMap, getSiteMap env links selector = .ok newSiteMap →
              ∀ sa : JobState, workerSelector env scrape parent startURL doc sa selector =
                match scrape newSiteMap selector.ID sa.world with
                | .error e => .error e
                | .ok (result, _, world1) =>
                  .ok (JobState.mk (mapSet sa.linkOutput selector.ID (.map result))
                    sa.StartURL world1))))) := by
  constructor
  · intro hne
    have hskip : ∀ sa : JobState,
        workerSelector env scrape parent startURL doc sa selector = .ok sa := by
      intro sa
      unfold workerSelector
      simp [hp, hne]
    refine ⟨hskip, ?_⟩
    obtain ⟨sa, sb, hstep, hsa, hst⟩ :=
      workerSelectors_entry env scrape parent startURL doc selector sels _ st hrun hmem hid
    rw [hskip sa] at hstep
    cases hstep
    rw [hst, hsa]
    rfl
  · intro heq
    subst heq
    refine ⟨?_, ?_, ?_, ?_, ?_, ?_⟩
    · intro ht
      refine ⟨?_, ?_⟩
      · intro sa
        cases hr : selectorText env doc selector <;> simp [workerSelector, hp, ht, hr]
      · intro raw hraw
        exact job_entry_collapsed env scrape parent startURL doc urls w sels st selector ps raw
          hrun hmem hid hp (Or.inl ⟨ht, hraw⟩)
    · intro ht
      refine ⟨?_, ?_⟩
      · intro sa
        cases hr : selectorImage env doc selector <;> simp [workerSelector, hp, ht, hr]
      · intro raw hraw
        exact job_entry_collapsed env scrape parent startURL doc urls w sels st selector ps raw
          hrun hmem hid hp (Or.inr ⟨ht, hraw⟩)
    · intro ht
      have hstep : ∀ sa : JobState, workerSelector env scrape parent startURL doc sa selector =
          match selectorElementAttribute env doc selector with
          | .error e => .error e
          | .ok r =>
            .ok (JobState.mk (mapSet sa.linkOutput selector.ID (.strs r)) sa.StartURL
              sa.world) := by
        intro sa
        cases hr : selectorElementAttribute env doc selector <;>
          simp [workerSelector, hp, ht, hr]
      refine ⟨hstep, ?_⟩
      intro r hr
      apply job_entry_of_step env scrape parent startURL doc _ sels st selector _ hrun hmem hid
      intro sa sb h
      rw [hstep sa, hr] at h
      cases h
      rfl
    · intro ht
      have hstep : ∀ sa : JobState, workerSelector env scrape parent startURL doc sa selector =
          match selectorElement env doc selector with
          | .error e => .error e
          | .ok r =>
            .ok (JobState.mk (mapSet sa.linkOutput selector.ID (.list (r.map Value.map)))
              sa.StartURL sa.world) := by
        intro sa
        cases hr : selectorElement env doc selector <;> simp [workerSelector, hp, ht, hr]
      refine ⟨hstep, ?_⟩
      intro r hr
      apply job_entry_of_step env scrape parent startURL doc _ sels st selector _ hrun hmem hid
      intro sa sb h
      rw [hstep sa, hr] at h
      cases h
      rfl
    · intro ht
      have hstep : ∀ sa : JobState, workerSelector env scrape parent startURL doc sa selector =
          .ok (JobState.mk
            (mapSet sa.linkOutput selector.ID (.map (selectorTable env doc selector)))
            sa.StartURL sa.world) := by
        intro sa
        simp [workerSelector, hp, ht]
      refine ⟨hstep, ?_⟩
      apply job_entry_of_step env scrape parent startURL doc _ sels st selector _ hrun hmem hid
      intro sa sb h
      rw [hstep sa] at h
      cases h
      rfl
    · intro ht
      refine ⟨?_, ?_⟩
      · intro e he sa
        simp [workerSelector, hp, ht, he]
      · intro links hl
        refine ⟨?_, ?_, ?_⟩
        · intro hself sa
          have hhas : HasElem (parent :: ps) selector.ID = true :=
            hp ▸ (HasElem_iff _ _).2 hself
          simp [workerSelector, hp, ht, hl, hhas]
        · intro hself hchild
          have hno : HasElem (parent :: ps) selector.ID = false := by
            cases hh : HasElem (parent :: ps) selector.ID with
            | false => rfl
            | true => exact absurd (hp ▸ (HasElem_iff _ _).1 hh) hself
          have hstep : ∀ sa : JobState,
              workerSelector env scrape parent startURL doc sa selector =
                .ok (JobState.mk (mapSet sa.linkOutput selector.ID (.strs links)) sa.StartURL
                  sa.world) := by
            intro sa
            simp [workerSelector, hp, ht, hl, hno, hchild]
          refine ⟨hstep, ?_⟩
          apply job_entry_of_step env scrape parent startURL doc _ sels st selector _ hrun hmem
            hid
          intro sa sb h
          rw [hstep sa] at h
          cases h
          rfl
        · intro hself hchild newSiteMap hmap sa
          have hno : HasElem (parent :: ps) selector.ID = false := by
            cases hh : HasElem (parent :: ps) selector.ID with
            | false => rfl
            | true => exact absurd (hp ▸ (HasElem_iff _ _).1 hh) hself
          cases hs : scrape newSiteMap selector.ID sa.world <;>
            simp [workerSelector, hp, ht, hl, hno, hchild, hmap, hs]

/-- C12 amended, at the jobs over the page of S1 with the selector `heading`, whose
parents are `_root` and `link`: the job with parent `link` completes and has no
entry for it, the job with parent `_root` completes and holds the bare string
`Hello`. -/
theorem worker_first_parent_scope_witness :
    workerSelectors docEnv (scraper docEnv 0) "link" "http://x/" s1Page
        (JobState.mk [] ["http://x/"] world0) [sharedSelector] =
      .ok (JobState.mk [] ["http://x/"] world0) ∧
    mapGet (JobState.mk [] ["http://x/"] world0).linkOutput sharedSelector.ID = none ∧
    workerSelectors docEnv (scraper docEnv 0) "_root" "http://x/" s1Page
        (JobState.mk [] ["http://x/"] world0) [sharedSelector] =
      .ok (JobState.mk [("heading", .str "Hello")] ["http://x/"] world0) ∧
    mapGet (JobState.mk [("heading", Value.str "Hello")] ["http://x/"] world0).linkOutput
        sharedSelector.ID =
      mapGet (storeCollapsed [] sharedSelector.ID ["Hello"]) sharedSelector.ID :=
  ⟨rfl,
    ((worker_first_parent_scope docEnv (scraper docEnv 0) "link" "http://x/" s1Page
      ["http://x/"] world0 [sharedSelector] (JobState.mk [] ["http://x/"] world0)
      sharedSelector "_root" ["link"] rfl (List.mem_singleton.2 rfl) (by decide) rfl).1
      (by decide)).2,
    rfl,
    (((worker_first_parent_scope docEnv (scraper docEnv 0) "_root" "http://x/" s1Page
      ["http://x/"] world0 [sharedSelector]
      (JobState.mk [("heading", Value.str "Hello")] ["http://x/"] world0)
      sharedSelector "_root" ["link"] rfl (List.mem_singleton.2 rfl) (by decide) rfl).2
      rfl).1 rfl).2 ["Hello"] rfl⟩

theorem mapSet_append_new (m : GoMap) (k : String) (v : Value) (h : k ∉ m.map Prod.fst) :
    mapSet m k v = m ++ [(k, v)] := by
  induction m with
  | nil => rfl
  | cons kv m ih =>
    obtain ⟨k1, v1⟩ := kv
    have h1 : ¬ k1 = k := fun e => h (by simp [e])
    have h2 : k ∉ m.map Prod.fst := fun e => h (by simp [e])
    simp [mapSet, h1, ih h2]

theorem elementChild_eq {Node URL : Type} (env : Env Node URL) (selector : Selectors) (s : Node)
    (out : GoMap) (c : Selectors) (hc : c.ParentSelectors ≠ []) :
    elementChild env selector s out c =
      .ok (if contributes selector c = true then
        mapSet out c.ID (.str (childValue env s c)) else out) := by
  cases hps : c.ParentSelectors with
  | nil => exact absurd hps hc
  | cons p ps =>
    unfold elementChild contributes childValue
    by_cases hid : selector.ID = p
    · by_cases h1 : c.Typ = "SelectorText"
      · simp [hps, hid, h1]
      · by_cases h2 : c.Typ = "SelectorImage"
        · simp [hps, hid, h2]
        · by_cases h3 : c.Typ = "SelectorLink"
          · simp [hps, hid, h3]
          · simp [hps, hid, h1, h2, h3]
    · have hid2 : ¬ p = selector.ID := fun e => hid e.symm
      simp [hps, hid, hid2]

theorem elementChildren_eq {Node URL : Type} (env : Env Node URL) (selector : Selectors)
    (s : Node) (sels : List Selectors) :
    ∀ out : GoMap, (∀ c ∈ sels, c.ParentSelectors ≠ []) → (sels.map Selectors.ID).Nodup →
      (∀ c ∈ sels, c.ID ∉ out.map Prod.fst) →
      elementChildren env selector s out sels = .ok (out ++ elementMap env selector sels s) := by
  induction sels with
  | nil => intro out _ _ _; simp [elementChildren, elementMap]
  | cons c rest ih =>
    intro out hpar hnd hnew
    rw [List.map_cons, List.nodup_cons] at hnd
    have hrest : ∀ d ∈ rest, d.ParentSelectors ≠ [] :=
      fun d hd => hpar d (List.mem_cons_of_mem _ hd)
    simp only [elementChildren, elementChild_eq env selector s out c (hpar c (List.mem_cons_self _ _))]
    by_cases hc : contributes selector c = true
    · have hfresh : c.ID ∉ out.map Prod.fst := hnew c (List.mem_cons_self _ _)
      simp only [hc, if_true, mapSet_append_new out c.ID _ hfresh]
      rw [ih _ hrest hnd.2]
      · simp [elementMap, hc]
      · intro d hd hmem
        rw [List.map_append, List.mem_append] at hmem
        rcases hmem with hmem | hmem
        · exact hnew d (List.mem_cons_of_mem _ hd) hmem
        · have : d.ID = c.ID := by simpa using hmem
          exact hnd.1 (this ▸ List.mem_map_of_mem Selectors.ID hd)
    · simp only [hc, Bool.false_eq_true, if_false]
      rw [ih _ hrest hnd.2 (fun d hd => hnew d (List.mem_cons_of_mem _ hd))]
      simp [elementMap, hc]

theorem eachWithBreak_collect_filter {Node β : Type}
    (f : Node → List β → Except Stop (List β × Bool))
    (v : Node → β) (keep : β → Bool) (multiple : Bool) (nodes : List Node) :
    ∀ acc : List β,
      (∀ s ∈ processed multiple nodes, ∀ a : List β,
        f s a = .ok (if keep (v s) = true then a ++ [v s] else a, multiple)) →
      eachWithBreak f nodes acc = .ok (acc ++ ((processed multiple nodes).map v).filter keep) := by
  induction nodes with
  | nil =>
    intro acc _
    cases multiple <;> simp [eachWithBreak, processed]
  | cons n ns ih =>
    intro acc h
    cases multiple with
    | false =>
      have hn := h n (by simp [processed]) acc
      by_cases hk : keep (v n) = true <;> simp [eachWithBreak, processed, hn, hk]
    | true =>
      have hn := h n (by simp [processed]) acc
      have hrest : ∀ s ∈ processed true ns, ∀ a : List β,
          f s a = .ok (if keep (v s) = true then a ++ [v s] else a, true) := by
        intro s hs
        apply h
        simp only [processed, if_true] at hs ⊢
        exact List.mem_cons_of_mem _ hs
      have ih2 := fun a => ih a hrest
      simp only [processed, if_true] at ih2 ⊢
      by_cases hk : keep (v n) = true <;> simp [eachWithBreak, hn, hk, ih2, List.filter_cons]

theorem selectorElement_eq {Node URL : Type} (env : Env Node URL) (doc : Node)
    (selector : Selectors) (base : Scraping) (hbase : env.siteMapFile = some base)
    (hpar : ∀ c ∈ base.Selectors, c.ParentSelectors ≠ [])
    (hid : (base.Selectors.map Selectors.ID).Nodup) :
    selectorElement env doc selector =
      .ok (((processed selector.Multiple (env.find doc selector.Selector)).map
        (elementMap env selector base.Selectors)).filter (fun m => decide (m.length ≠ 0))) := by
  unfold selectorElement readSiteMap
  simp only [hbase]
  rw [eachWithBreak_collect_filter _ (elementMap env selector base.Selectors)
    (fun m => decide (m.length ≠ 0)) selector.Multiple _ []]
  · simp
  · intro s _ a
    rw [elementChildren_eq env selector s base.Selectors [] hpar hid (by simp)]
    by_cases hl : (elementMap env selector base.Selectors s).length = 0 <;> simp [hl]

theorem mapGet_entries (f : Selectors → Value) (l : List Selectors)
    (hnd : (l.map Selectors.ID).Nodup) (c : Selectors) (hc : c ∈ l) :
    mapGet (l.map (fun d => (d.ID, f d))) c.ID = some (f c) := by
  induction l with
  | nil => cases hc
  | cons d rest ih =>
    rw [List.map_cons, List.nodup_cons] at hnd
    rcases List.mem_cons.1 hc with e | e
    · subst e
      simp [mapGet]
    · have hne : ¬ d.ID = c.ID := by
        intro heq
        exact hnd.1 (heq ▸ List.mem_map_of_mem Selectors.ID e)
      simp [mapGet, hne, ih hnd.2 e]

theorem mapGet_entries_none (f : Selectors → Value) (l : List Selectors) (k : String)
    (hk : k ∉ l.map Selectors.ID) : mapGet (l.map (fun d => (d.ID, f d))) k = none := by
  induction l with
  | nil => rfl
  | cons d rest ih =>
    have h1 : ¬ d.ID = k := fun e => hk (by simp [e])
    have h2 : k ∉ rest.map Selectors.ID := fun e => hk (by simp at e ⊢; exact Or.inr e)
    simp [mapGet, h1, ih h2]

/-- C13 refuted: in the `div` of the page the query `span` of the Text child `name`
finds two nodes, reading `a` and `b`, and the entry of `name` is `ab`, the text of
both, not the text `a` of the first. -/
theorem selectorElement_text_counterexample :
    (Html.find elementPage nameSelector.Selector).map Html.innerText = ["a", "b"] ∧
    selectorElement elementEnv elementPage elementSelector =
      .ok [[("name", .str "ab"), ("picture", .str "/i.png"), ("more", .str "/more")]] :=
  ⟨rfl, rfl⟩

/-- C13 amended: with `base` the sitemap file as `readSiteMap` decodes it, every
selector of it having a parent and the ids distinct, the mapping `selectorElement`
builds for a matched node has exactly one entry for each selector of `base`
whose first parent is the id of the Element selector and whose kind is Text,
Image or Link, and no entry under the id of any other selector of `base`.  The
value of the entry is, for Text, the texts of all the nodes found by the query of
the child below the match, concatenated; for Image and Link, the `src` or `href`
of the first node found, the empty string when there is none.  The result lists
the mappings of the processed matches, those without an entry left out. -/
theorem selectorElement_mappings {Node URL : Type} (env : Env Node URL) (doc : Node)
    (selector : Selectors) (base : Scraping) (hbase : env.siteMapFile = some base)
    (hpar : ∀ c ∈ base.Selectors, c.ParentSelectors ≠ [])
    (hid : (base.Selectors.map Selectors.ID).Nodup) :
    (∀ s, elementChildren env selector s [] base.Selectors =
      .ok (elementMap env selector base.Selectors s)) ∧
    (∀ s, (elementMap env selector base.Selectors s).length =
      (base.Selectors.filter (contributes selector)).length) ∧
    (∀ s c, c ∈ base.Selectors → contributes selector c = true →
      mapGet (elementMap env selector base.Selectors s) c.ID =
        some (.str (childValue env s c))) ∧
    (∀ s c, c ∈ base.Selectors → contributes selector c = false →
      mapGet (elementMap env selector base.Selectors s) c.ID = none) ∧
    (∀ s c, c.Typ = "SelectorText" →
      childValue env s c = String.join ((env.find s c.Selector).map env.text)) ∧
    selectorElement env doc selector =
      .ok (((processed selector.Multiple (env.find doc selector.Selector)).map
        (elementMap env selector base.Selectors)).filter (fun m => decide (m.length ≠ 0))) := by
  have hndf : ((base.Selectors.filter (contributes selector)).map Selectors.ID).Nodup :=
    List.Nodup.sublist (List.Sublist.map _ (List.filter_sublist _)) hid
  refine ⟨?_, ?_, ?_, ?_, ?_, selectorElement_eq env doc selector base hbase hpar hid⟩
  · intro s
    rw [elementChildren_eq env selector s base.Selectors [] hpar hid (by simp)]
    rfl
  · intro s
    simp [elementMap]
  · intro s c hc hcon
    exact mapGet_entries (fun d => Value.str (childValue env s d)) _ hndf c
      (List.mem_filter.2 ⟨hc, hcon⟩)
  · intro s c hc hcon
    apply mapGet_entries_none (fun d => Value.str (childValue env s d))
    intro hmem
    obtain ⟨d, hd, heq⟩ := List.mem_map.1 hmem
    obtain ⟨hdl, hdc⟩ := List.mem_filter.1 hd
    have : d = c := List.inj_on_of_nodup_map hid hdl hc heq
    subst this
    rw [hcon] at hdc
    cases hdc
  · intro s c ht
    simp [childValue, ht, selectionText]

/-- C13 amended, at the page with one `div`: the result is the one mapping of the
`div`, with the entries of `name`, `picture` and `more`. -/
theorem selectorElement_mappings_witness :
    selectorElement elementEnv elementPage elementSelector =
      .ok (((processed elementSelector.Multiple
            (elementEnv.find elementPage elementSelector.Selector)).map
          (elementMap elementEnv elementSelector elementSiteMap.Selectors)).filter
        (fun m => decide (m.length ≠ 0))) ∧
    ((processed elementSelector.Multiple
          (elementEnv.find elementPage elementSelector.Selector)).map
        (elementMap elementEnv elementSelector elementSiteMap.Selectors)).filter
        (fun m => decide (m.length ≠ 0)) =
      [[("name", .str "ab"), ("picture", .str "/i.png"), ("more", .str "/more")]] :=
  ⟨(selectorElement_mappings elementEnv elementPage elementSelector elementSiteMap rfl
      (by decide) (by decide)).2.2.2.2.2, rfl⟩

/-! ## The scraper of `main.go` on the same points -/

/-- In scenario S4 the `scraper` of `main.go` fetches the three pages, each once:
it reads `len(siteMap.StartURL)` again after the append loop. -/
theorem main_scraper_self_pagination :
    MainGo.scraper s4Env s4SiteMap 4 s4SiteMap "_root" world0 =
      .ok ([], ["http://x/1", "http://x/2", "http://x/3"],
        World.mk ["http://x/1", "http://x/2", "http://x/3"] (.document [])) := by
  rfl

/-- With no selector the loop of `main.go` over the start URLs fetches nothing and
records nothing. -/
theorem main_scraperLoop_no_selectors {Node URL : Type} (env : Env Node URL) (base : Scraping)
    (scrape : Scraping → String → World → Except Stop (GoMap × List String × World))
    (parent : String) (output : GoMap) (urls : List String) (w : World) (n : Nat) :
    ∀ i : Nat, urls.length ≤ i + n →
      MainGo.scraperLoop env base scrape parent [] (n + 1) i (output, urls, urls.length, w) =
        .ok (output, urls, w) := by
  induction n with
  | zero =>
    intro i h
    have hi : ¬ i < urls.length := by omega
    simp [MainGo.scraperLoop, hi]
  | succ n ih =>
    intro i h
    by_cases hi : i < urls.length
    · cases hg : urls.get? i with
      | none =>
        rw [List.get?_eq_none] at hg
        omega
      | some u =>
        have hnext := ih (i + 1) (by omega)
        rw [MainGo.scraperLoop]
        simp only [hi, if_true, hg, MainGo.scraperSelectors]
        simpa using hnext
    · simp [MainGo.scraperLoop, hi]

/-- With no selector the `scraper` of `main.go`, given fuel for its loop, returns
the empty map and leaves the world as it was. -/
theorem main_scraper_empty_selectors {Node URL : Type} (env : Env Node URL) (base : Scraping)
    (fuel : Nat) (siteMap : Scraping) (parent : String) (w : World)
    (hsel : siteMap.Selectors = []) (hfuel : siteMap.StartURL.length ≤ fuel) :
    MainGo.scraper env base (fuel + 1) siteMap parent w = .ok ([], siteMap.StartURL, w) := by
  simp only [MainGo.scraper, hsel]
  exact main_scraperLoop_no_selectors env base _ parent [] siteMap.StartURL w fuel 0 (by omega)

/-- The `scraper` of `main.go` skips a selector whose first parent is not the
parent of the evaluation, without a fetch. -/
theorem main_first_parent_scope {Node URL : Type} (env : Env Node URL) (base : Scraping)
    (scrape : Scraping → String → World → Except Stop (GoMap × List String × World))
    (parent startURL : String) (st : MainGo.MainState) (selector : Selectors) (p : String)
    (ps : List String) (hp : selector.ParentSelectors = p :: ps) (hne : parent ≠ p) :
    MainGo.scraperSelector env base scrape parent startURL st selector = .ok st := by
  unfold MainGo.scraperSelector
  simp [hp, hne]

/-! ## The Link branch on the sitemap file of `backend.go` -/

/-- C4, the code at the failing input: in scenario S2 run from a `sitemap.json` of
the shape `{Settings, Sitemap}`, the selector `body` of the sitemap has `link` as
first parent and `link` does not list itself, yet the worker records under `link`
the flat list of the two links: `getChildSelector` counts the children in what
`readSiteMap` decodes, which has no selector.  The pages `/p1` and `/p2` are not
fetched and no nested evaluation is made, for any number of workers and any
fuel. -/
theorem worker_link_with_child_records_flat_list :
    bodySelector ∈ s2SiteMap.Selectors ∧
    bodySelector.ParentSelectors.head? = some linkSelector.ID ∧
    linkSelector.ID ∉ linkSelector.ParentSelectors ∧
    (∀ fuel : Nat,
      workerSelector s2FileEnv (scraper s2FileEnv fuel) "_root" "http://x/" s2StartPage
          (JobState.mk [] ["http://x/"] world0) linkSelector =
        .ok (JobState.mk [("link", .strs ["http://x/p1", "http://x/p2"])] ["http://x/"]
          world0)) ∧
    (∀ workers fuel : Nat,
      scraper (pageEnv s2Pages (some bareDecode) (workers + 1) "json") (fuel + 1) s2SiteMap
          "_root" world0 =
        .ok ([], ["http://x/"],
          World.mk ["http://x/"]
            (.document [("http://x/", .map [("link", .strs ["http://x/p1", "http://x/p2"])])]))) := by
  refine ⟨by decide, rfl, by decide, ?_, ?_⟩
  · intro fuel
    rfl
  · intro workers fuel
    rfl

/-- In scenario S2 the `scraper` of `main.go`, whose `readSiteMap` decodes the
sitemap it runs on, records under `link` the map of the nested evaluation. -/
theorem main_scraper_link_with_child :
    MainGo.scraper s2Env s2SiteMap 4 s2SiteMap "_root" world0 =
      .ok ([], ["http://x/"],
        World.mk ["http://x/", "http://x/p1", "http://x/p2"]
          (.document [("http://x/", .map [("link",
            .map [("http://x/p1", .map [("body", .str "A")]),
                  ("http://x/p2", .map [("body", .str "B")])])])])) := by
  rfl

end DataScraper
